import Mathlib

/-!
# Dilay: delete-sketch tool, crease sculpt tool, 6-gon triangulation

A shallow embedding of

* `lib/src/tool/delete-sketch.cpp`  (`fromMode`, `toMode`, `ToolDeleteSketch::Impl`),
* `lib/src/tool/sculpt/crease.cpp`  (`ToolSculptCrease::Impl`),
* `src/partial-action/triangulate-6-gon.hpp` (declaration of `PATriangulate6Gon::run`),

followed by the properties proved about them.

Conventions.  `int` is embedded as `Int` (no arithmetic is done on it), `float`
is embedded as `ℚ` (arithmetic read as exact).  `DILAY_IMPOSSIBLE` is embedded
as the `none` result of an `Option`.  Collaborators whose code is not part of
the three files (scene, picking, sketch meshes) are taken as parameters.
-/

namespace Dilay

/-! ## Preference store (`cache.hpp`) -/

/-- Modelled from the spec: the preference store `Cache` (`cache.hpp` is not among
the sources).  The spec describes it as a key-value cache with
`get<T>(key, default) -> T` and `set<T>(key, value)`.  One table per value type
used by the two tools (`int`, `bool`, `float`); an absent key is `none`. -/
structure Cache where
  ints   : String → Option Int
  bools  : String → Option Bool
  floats : String → Option ℚ

namespace Cache

/-- The store with no entries. -/
def empty : Cache := ⟨fun _ => none, fun _ => none, fun _ => none⟩

/-- Typed read `get <int> (key, default)`. -/
def getInt (c : Cache) (key : String) (dflt : Int) : Int :=
  match c.ints key with
  | some v => v
  | none   => dflt

/-- Typed read `get <bool> (key, default)`. -/
def getBool (c : Cache) (key : String) (dflt : Bool) : Bool :=
  match c.bools key with
  | some v => v
  | none   => dflt

/-- Typed read `get <float> (key, default)`. -/
def getFloat (c : Cache) (key : String) (dflt : ℚ) : ℚ :=
  match c.floats key with
  | some v => v
  | none   => dflt

/-- Typed write `set (key, value)` of an `int`. -/
def setInt (c : Cache) (key : String) (v : Int) : Cache :=
  { c with ints := fun k => if k = key then some v else c.ints k }

/-- Typed write `set (key, value)` of a `bool`. -/
def setBool (c : Cache) (key : String) (v : Bool) : Cache :=
  { c with bools := fun k => if k = key then some v else c.bools k }

/-- Typed write `set (key, value)` of a `float`. -/
def setFloat (c : Cache) (key : String) (v : ℚ) : Cache :=
  { c with floats := fun k => if k = key then some v else c.floats k }

end Cache

/-! ## `delete-sketch.cpp` -/

/-- Embeds `enum class Mode { DeleteMesh, DeleteNode, DeleteSpheres }`. -/
inductive Mode where
  | DeleteMesh
  | DeleteNode
  | DeleteSpheres
  deriving DecidableEq, Repr

/-- Embeds `int fromMode (Mode m)`; the `default` branch is not reachable from a value of
the enumeration. -/
def fromMode : Mode → Int
  | .DeleteMesh    => 0
  | .DeleteNode    => 1
  | .DeleteSpheres => 2

/-- Embeds `Mode toMode (int m)`; `none` is the `DILAY_IMPOSSIBLE` branch. -/
def toMode (m : Int) : Option Mode :=
  if m = 0 then some .DeleteMesh
  else if m = 1 then some .DeleteNode
  else if m = 2 then some .DeleteSpheres
  else none

/-- A `QCheckBox` as far as the tool uses it: its check state and whether it is
enabled (a freshly created widget is enabled). -/
structure CheckBox where
  checked : Bool
  enabled : Bool
  deriving DecidableEq, Repr

/-- Embeds `ViewUtil::checkBox (label, checked)`. -/
def ViewUtil.checkBox (checked : Bool) : CheckBox := ⟨checked, true⟩

/-- A `QRadioButton` as far as the tool uses it. -/
structure RadioButton where
  checked : Bool
  deriving DecidableEq, Repr

/-- Embeds `ViewUtil::radioButton (label, checked)`. -/
def ViewUtil.radioButton (checked : Bool) : RadioButton := ⟨checked⟩

/-- Embeds `enum class Dimension { X, Y, Z }` (`dimension.hpp`). -/
inductive Dimension where
  | X
  | Y
  | Z
  deriving DecidableEq, Repr

/-- State of `ToolDeleteSketch::Impl` together with what it reaches through `self`:
the cache, the mirror setting, and the widgets created by `setupProperties`. -/
structure ToolDeleteSketch where
  cache              : Cache
  mode               : Mode
  deleteChildren     : Bool
  hasMirror          : Bool
  mirrorDimension    : Option Dimension
  renderMirror       : Bool
  deleteChildrenEdit : CheckBox
  mirrorEdit         : CheckBox
  deleteMeshEdit     : RadioButton
  deleteNodeEdit     : RadioButton
  deleteSpheresEdit  : RadioButton

namespace ToolDeleteSketch

/-- Embeds `setupProperties`: creation of the widgets and their initial state, on
the members initialised by the constructor (which has switched mirror rendering
off).  The callbacks connected here are `onDeleteChildren`, `onDeleteMesh`,
`onDeleteNode`, `onDeleteSpheres` below; the callback of the "Mirror" check box
forwards to `Tool::mirror`, which is outside the file and is not embedded;
labels and layout are left out. -/
def setupProperties (cache : Cache) (mode : Mode) (deleteChildren hasMirror : Bool)
    (mirrorDimension : Option Dimension) : ToolDeleteSketch :=
  { cache              := cache
    mode               := mode
    deleteChildren     := deleteChildren
    hasMirror          := hasMirror
    mirrorDimension    := mirrorDimension
    renderMirror       := false
    deleteChildrenEdit := { ViewUtil.checkBox deleteChildren with
                            enabled := decide (mode = Mode.DeleteNode) }
    mirrorEdit         := { ViewUtil.checkBox hasMirror with
                            enabled := decide (mode ≠ Mode.DeleteMesh) }
    deleteMeshEdit     := ViewUtil.radioButton (decide (mode = Mode.DeleteMesh))
    deleteNodeEdit     := ViewUtil.radioButton (decide (mode = Mode.DeleteNode))
    deleteSpheresEdit  := ViewUtil.radioButton (decide (mode = Mode.DeleteSpheres)) }

/-- The constructor `Impl (ToolDeleteSketch* s)`: reads `mode` and
`delete-children` from the cache, switches mirror rendering off and sets up the
widgets.  `none` when `toMode` reaches `DILAY_IMPOSSIBLE`. -/
def new (cache : Cache) (hasMirror : Bool) (mirrorDimension : Option Dimension) :
    Option ToolDeleteSketch :=
  match toMode (cache.getInt "mode" (fromMode Mode.DeleteNode)) with
  | none      => none
  | some mode =>
      some (setupProperties cache mode (cache.getBool "delete-children" false)
              hasMirror mirrorDimension)

/-- Callback of the "Delete children" check box. -/
def onDeleteChildren (m : Bool) (t : ToolDeleteSketch) : ToolDeleteSketch :=
  { t with deleteChildren := m
           cache          := t.cache.setBool "delete-children" m }

/-- Callback of the "Delete mesh" radio button. -/
def onDeleteMesh (m : Bool) (t : ToolDeleteSketch) : ToolDeleteSketch :=
  { t with mode               := Mode.DeleteMesh
           cache              := t.cache.setInt "mode" (fromMode Mode.DeleteMesh)
           deleteChildrenEdit := { t.deleteChildrenEdit with enabled := !m }
           mirrorEdit         := { t.mirrorEdit with enabled := !m } }

/-- Callback of the "Delete node" radio button. -/
def onDeleteNode (m : Bool) (t : ToolDeleteSketch) : ToolDeleteSketch :=
  { t with mode               := Mode.DeleteNode
           cache              := t.cache.setInt "mode" (fromMode Mode.DeleteNode)
           deleteChildrenEdit := { t.deleteChildrenEdit with enabled := m }
           mirrorEdit         := { t.mirrorEdit with enabled := m } }

/-- Callback of the "Delete spheres" radio button. -/
def onDeleteSpheres (m : Bool) (t : ToolDeleteSketch) : ToolDeleteSketch :=
  { t with mode               := Mode.DeleteSpheres
           cache              := t.cache.setInt "mode" (fromMode Mode.DeleteSpheres)
           deleteChildrenEdit := { t.deleteChildrenEdit with enabled := !m }
           mirrorEdit         := { t.mirrorEdit with enabled := m } }

/-- The widget callbacks defined in `setupProperties` that write to the members
of the tool or to the cache. -/
inductive WidgetEvent where
  | deleteChildren (m : Bool)
  | deleteMesh     (m : Bool)
  | deleteNode     (m : Bool)
  | deleteSpheres  (m : Bool)
  deriving DecidableEq, Repr

/-- Dispatch of a widget event to its callback. -/
def onWidget (t : ToolDeleteSketch) : WidgetEvent → ToolDeleteSketch
  | .deleteChildren m => onDeleteChildren m t
  | .deleteMesh m     => onDeleteMesh m t
  | .deleteNode m     => onDeleteNode m t
  | .deleteSpheres m  => onDeleteSpheres m t

/-- The relation between mode and option widgets that `setupProperties`
establishes at lines 69 and 76. -/
def widgetsConsistent (t : ToolDeleteSketch) : Prop :=
  (t.deleteChildrenEdit.enabled = true ↔ t.mode = Mode.DeleteNode) ∧
  (t.mirrorEdit.enabled = true ↔ t.mode ≠ Mode.DeleteMesh)

instance (t : ToolDeleteSketch) : Decidable (widgetsConsistent t) := by
  unfold widgetsConsistent; infer_instance

end ToolDeleteSketch

/-- The cache entry `mode` agrees with the tool's mode: it is absent and the mode
is the default `DeleteNode`, or it is the encoding of the mode. -/
def ToolDeleteSketch.modeStored (t : ToolDeleteSketch) : Prop :=
  (t.cache.ints "mode" = none ∧ t.mode = Mode.DeleteNode) ∨
  t.cache.ints "mode" = some (fromMode t.mode)

/-! ### The mouse-release handler -/

/-- Embeds `Qt::MouseButton`, as far as the handler distinguishes it. -/
inductive MouseButton where
  | LeftButton
  | RightButton
  | MiddleButton
  deriving DecidableEq, Repr

/-- Embeds `QEvent::Type` of a mouse event. -/
inductive MouseEventType where
  | Press
  | Move
  | Release
  deriving DecidableEq, Repr

/-- A `QMouseEvent`: the button that caused it, the pointer position, the kind of
event and whether the modifier key (shift) accompanied it. -/
structure QMouseEvent where
  button   : MouseButton
  x        : Int
  y        : Int
  type     : MouseEventType
  modifier : Bool
  deriving DecidableEq, Repr

/-- A left-button release at `(x, y)` without modifier. -/
def releaseAt (x y : Int) : QMouseEvent :=
  { button := MouseButton.LeftButton, x := x, y := y,
    type := MouseEventType.Release, modifier := false }

/-- Embeds `enum class ToolResponse`: the two values the handler returns. -/
inductive ToolResponse where
  | None
  | Redraw
  deriving DecidableEq, Repr

/-- The collaborators of the handler, taken as parameters (their code is not part
of `delete-sketch.cpp`): the three overloads of `Tool::intersectsScene`, one per
intersection type, `Scene::deleteMesh`, and `SketchMesh::deleteNode`,
`SketchMesh::deletePath`, `SketchMesh::isEmpty`.  Meshes, nodes and paths are
referred to by index; `S` is the state of the scene. -/
structure SceneOps (S : Type) where
  intersectsMesh : S → QMouseEvent → Option Nat
  intersectsNode : S → QMouseEvent → Option (Nat × Nat)
  intersectsPath : S → QMouseEvent → Option (Nat × Nat)
  deleteMesh     : S → Nat → S
  deleteNode     : S → Nat → Nat → Bool → Option Dimension → S
  deletePath     : S → Nat → Nat → Option Dimension → S
  isEmpty        : S → Nat → Bool

/-- The calls the handler makes on its collaborators. -/
inductive Call where
  | intersectsScene
  | snapshotSketchMeshes
  | sceneDeleteMesh (mesh : Nat)
  | meshDeleteNode (mesh node : Nat) (deleteChildren : Bool) (mirror : Option Dimension)
  | meshDeletePath (mesh path : Nat) (mirror : Option Dimension)
  | meshIsEmpty (mesh : Nat)
  deriving DecidableEq, Repr

/-- A deletion call: `scene.deleteMesh`, `mesh.deleteNode` or `mesh.deletePath`. -/
def Call.isDeletion : Call → Bool
  | .sceneDeleteMesh _      => true
  | .meshDeleteNode _ _ _ _ => true
  | .meshDeletePath _ _ _   => true
  | _                       => false

/-- A call of `scene.deleteMesh`. -/
def Call.isSceneDeleteMesh : Call → Bool
  | .sceneDeleteMesh _ => true
  | _                  => false

/-- A call of `mesh.deleteNode` or `mesh.deletePath`. -/
def Call.isStructuralDeletion : Call → Bool
  | .meshDeleteNode _ _ _ _ => true
  | .meshDeletePath _ _ _   => true
  | _                       => false

/-- What the handler acts on: the scene, the snapshots taken so far (newest
first) and the log of calls made so far (oldest first). -/
structure World (S : Type) where
  scene     : S
  snapshots : List S
  log       : List Call

namespace World

variable {S : Type}

/-- Append one call to the log. -/
def call (c : Call) (w : World S) : World S :=
  { w with log := w.log ++ [c] }

/-- Embeds `self->intersectsScene (e, intersection)` with a `SketchMeshIntersection`. -/
def intersectsMesh (ops : SceneOps S) (e : QMouseEvent) (w : World S) :
    Option Nat × World S :=
  (ops.intersectsMesh w.scene e, w.call .intersectsScene)

/-- Embeds `self->intersectsScene (e, intersection)` with a `SketchNodeIntersection`. -/
def intersectsNode (ops : SceneOps S) (e : QMouseEvent) (w : World S) :
    Option (Nat × Nat) × World S :=
  (ops.intersectsNode w.scene e, w.call .intersectsScene)

/-- Embeds `self->intersectsScene (e, intersection)` with a `SketchPathIntersection`. -/
def intersectsPath (ops : SceneOps S) (e : QMouseEvent) (w : World S) :
    Option (Nat × Nat) × World S :=
  (ops.intersectsPath w.scene e, w.call .intersectsScene)

/-- Modelled from the spec: `Tool::snapshotSketchMeshes` (`tool.cpp` is not among
the sources).  By §4.1 a snapshot captures the state before the mutation; here
the current scene is pushed on the list of snapshots. -/
def snapshotSketchMeshes (w : World S) : World S :=
  { (w.call .snapshotSketchMeshes) with snapshots := w.scene :: w.snapshots }

/-- Embeds `state ().scene ().deleteMesh (mesh)`. -/
def sceneDeleteMesh (ops : SceneOps S) (mesh : Nat) (w : World S) : World S :=
  { (w.call (.sceneDeleteMesh mesh)) with scene := ops.deleteMesh w.scene mesh }

/-- Embeds `mesh.deleteNode (node, deleteChildren, mirrorDimension)`. -/
def meshDeleteNode (ops : SceneOps S) (mesh node : Nat) (deleteChildren : Bool)
    (mirror : Option Dimension) (w : World S) : World S :=
  { (w.call (.meshDeleteNode mesh node deleteChildren mirror)) with
    scene := ops.deleteNode w.scene mesh node deleteChildren mirror }

/-- Embeds `mesh.deletePath (path, mirrorDimension)`. -/
def meshDeletePath (ops : SceneOps S) (mesh path : Nat) (mirror : Option Dimension)
    (w : World S) : World S :=
  { (w.call (.meshDeletePath mesh path mirror)) with
    scene := ops.deletePath w.scene mesh path mirror }

/-- Embeds `mesh.isEmpty ()`. -/
def meshIsEmpty (ops : SceneOps S) (mesh : Nat) (w : World S) : Bool × World S :=
  (ops.isEmpty w.scene mesh, w.call (.meshIsEmpty mesh))

end World

namespace ToolDeleteSketch

variable {S : Type}

/-- Embeds `ToolResponse runMouseReleaseEvent (const QMouseEvent& e)`. -/
def runMouseReleaseEvent (ops : SceneOps S) (t : ToolDeleteSketch) (e : QMouseEvent)
    (w : World S) : ToolResponse × World S :=
  if e.button = MouseButton.LeftButton then
    match t.mode with
    | Mode.DeleteMesh =>
        match w.intersectsMesh ops e with
        | (some mesh, w1) =>
            let w2 := w1.snapshotSketchMeshes
            let w3 := w2.sceneDeleteMesh ops mesh
            (ToolResponse.Redraw, w3)
        | (none, w1) => (ToolResponse.Redraw, w1)
    | Mode.DeleteNode =>
        match w.intersectsNode ops e with
        | (some (mesh, node), w1) =>
            let w2 := w1.snapshotSketchMeshes
            let w3 := w2.meshDeleteNode ops mesh node t.deleteChildren t.mirrorDimension
            match w3.meshIsEmpty ops mesh with
            | (true, w4)  => (ToolResponse.Redraw, w4.sceneDeleteMesh ops mesh)
            | (false, w4) => (ToolResponse.Redraw, w4)
        | (none, w1) => (ToolResponse.Redraw, w1)
    | Mode.DeleteSpheres =>
        match w.intersectsPath ops e with
        | (some (mesh, path), w1) =>
            let w2 := w1.snapshotSketchMeshes
            let w3 := w2.meshDeletePath ops mesh path t.mirrorDimension
            match w3.meshIsEmpty ops mesh with
            | (true, w4)  => (ToolResponse.Redraw, w4.sceneDeleteMesh ops mesh)
            | (false, w4) => (ToolResponse.Redraw, w4)
        | (none, w1) => (ToolResponse.Redraw, w1)
  else
    (ToolResponse.None, w)

/-- The result of the picking query the handler makes in mode `t.mode`: the hit
mesh together with the hit node or path (`0` in mode `DeleteMesh`, where there is
none). -/
def pick (ops : SceneOps S) (t : ToolDeleteSketch) (e : QMouseEvent) (s : S) :
    Option (Nat × Nat) :=
  match t.mode with
  | Mode.DeleteMesh    => (ops.intersectsMesh s e).map (fun m => (m, 0))
  | Mode.DeleteNode    => ops.intersectsNode s e
  | Mode.DeleteSpheres => ops.intersectsPath s e

/-- The scene after the structural deletion of the event (`deleteNode` in mode
`DeleteNode`, `deletePath` in mode `DeleteSpheres`) on the hit `(mesh, target)`. -/
def afterDeletion (ops : SceneOps S) (t : ToolDeleteSketch) (s : S) (mesh target : Nat) : S :=
  match t.mode with
  | Mode.DeleteMesh    => s
  | Mode.DeleteNode    => ops.deleteNode s mesh target t.deleteChildren t.mirrorDimension
  | Mode.DeleteSpheres => ops.deletePath s mesh target t.mirrorDimension

/-- The structural deletion call of the event on the hit `(mesh, target)`. -/
def deletionCall (t : ToolDeleteSketch) (mesh target : Nat) : Call :=
  match t.mode with
  | Mode.DeleteMesh    => .sceneDeleteMesh mesh
  | Mode.DeleteNode    => .meshDeleteNode mesh target t.deleteChildren t.mirrorDimension
  | Mode.DeleteSpheres => .meshDeletePath mesh target t.mirrorDimension

end ToolDeleteSketch

/-! ### A small concrete scene, used to instantiate the general statements -/

/-- A toy scene: the list of sketch meshes, each given by the list of its nodes
(paths are also numbered by list entries). -/
abbrev ToyScene := List (List Nat)

/-- Collaborators on the toy scene: picking hits mesh `x` (and node or path `y`)
when the pointer position `(x, y)` addresses an existing entry. -/
def toyOps : SceneOps ToyScene where
  intersectsMesh s e :=
    if e.x.toNat < s.length then some e.x.toNat else none
  intersectsNode s e :=
    if e.y.toNat ∈ s.getD e.x.toNat [] then some (e.x.toNat, e.y.toNat) else none
  intersectsPath s e :=
    if e.y.toNat ∈ s.getD e.x.toNat [] then some (e.x.toNat, e.y.toNat) else none
  deleteMesh s m := s.eraseIdx m
  deleteNode s m n _ _ := s.set m ((s.getD m []).erase n)
  deletePath s m p _ := s.set m ((s.getD m []).erase p)
  isEmpty s m := (s.getD m []).isEmpty

/-- An initial world over the toy scene. -/
def toyWorld (s : ToyScene) : World ToyScene := ⟨s, [], []⟩

/-- A delete tool in a given mode, built by `setupProperties` over the empty cache. -/
def toyTool (mode : Mode) : ToolDeleteSketch :=
  ToolDeleteSketch.setupProperties Cache.empty mode false false none

/-! ## `sculpt/crease.cpp` -/

/-- Parameters of the crease brush (`SBCreaseParameters`, `sculpt-brush.hpp`):
the two the tool reads and writes. -/
structure SBCreaseParameters where
  intensity : ℚ
  invert    : Bool
  deriving DecidableEq, Repr

/-- Modelled from the spec: `SBCreaseParameters::toggleInvert` (`sculpt-brush.hpp`
is not among the sources); a toggle of `invert` flips it. -/
def SBCreaseParameters.toggleInvert (p : SBCreaseParameters) : SBCreaseParameters :=
  { p with invert := !p.invert }

/-- A `SculptBrush` as far as the crease tool uses it: its detail factor and its
crease parameters. -/
structure SculptBrush where
  detailFactor : ℚ
  parameters   : SBCreaseParameters
  deriving DecidableEq, Repr

/-- A `ViewDoubleSlider` as created by `ViewUtil::slider (min, value, max, step)`. -/
structure ViewDoubleSlider where
  min   : ℚ
  value : ℚ
  max   : ℚ
  step  : ℚ
  deriving DecidableEq, Repr

/-- Embeds `ViewUtil::slider (min, value, max, step)`. -/
def ViewUtil.slider (min value max step : ℚ) : ViewDoubleSlider := ⟨min, value, max, step⟩

/-- The phases of an interactive stroke (§4.4 of the specification). -/
inductive StrokePhase where
  | Idle
  | Pressed
  | Dragging
  | Released
  deriving DecidableEq, Repr

/-- State the crease tool reaches through `self`: cache and brush, the picking
service (whether an event's pointer position is over a mesh), and the state of
the stroke.  `toggles` and `steps` are ghost counters: the number of
`toggleInvert` calls and of deformation steps made so far. -/
structure ToolSculptCrease where
  cache    : Cache
  brush    : SculptBrush
  overMesh : QMouseEvent → Bool
  phase    : StrokePhase
  captured : Option SBCreaseParameters
  toggles  : Nat
  steps    : Nat

namespace ToolSculptCrease

/-- Embeds `void runSetupBrush (SculptBrush& brush)`. -/
def runSetupBrush (t : ToolSculptCrease) (brush : SculptBrush) : SculptBrush :=
  { brush with
    detailFactor := brush.detailFactor + 1 / 2
    parameters   := { brush.parameters with
                      intensity := t.cache.getFloat "intensity" (1 / 2)
                      invert    := t.cache.getBool "invert" false } }

/-- Embeds `runSetupProperties`: the widgets it creates (the callbacks connected to them
are `onIntensity` and `onInvert`). -/
def runSetupProperties (t : ToolSculptCrease) : ViewDoubleSlider × CheckBox :=
  ( ViewUtil.slider (1 / 10) t.brush.parameters.intensity (9 / 10) (1 / 20)
  , ViewUtil.checkBox t.brush.parameters.invert )

/-- Callback of the intensity slider. -/
def onIntensity (i : ℚ) (t : ToolSculptCrease) : ToolSculptCrease :=
  { t with brush := { t.brush with parameters := { t.brush.parameters with intensity := i } }
           cache := t.cache.setFloat "intensity" i }

/-- Callback of the "Invert" check box. -/
def onInvert (i : Bool) (t : ToolSculptCrease) : ToolSculptCrease :=
  { t with brush := { t.brush with parameters := { t.brush.parameters with invert := i } }
           cache := t.cache.setBool "invert" i }

/-- The closure `toggleInvert` of `runMouseEvent`: toggles `invert` of the brush's
crease parameters (and counts the call). -/
def toggleInvert (t : ToolSculptCrease) : ToolSculptCrease :=
  { t with brush   := { t.brush with parameters := t.brush.parameters.toggleInvert }
           toggles := t.toggles + 1 }

/-- Modelled from the spec: `ToolSculpt::carvelikeStroke (e, flag, toggle)`
(`tool/sculpt.cpp` is not among the sources), following the stroke state machine
of §4.4.  `Pressed` is entered on pointer-down over a mesh: the brush parameters
are captured and `toggle` is invoked once if a modifier key accompanied the
press.  A pointer-move while pressed is `Dragging`: one deformation step when
the pointer is over a mesh, and no invocation of `toggle`.  A release ends the
stroke; a press that is not over a mesh is a no-op.  The result tells whether a
surface point was hit.  The spec does not describe `flag`. -/
def carvelikeStroke (e : QMouseEvent) (flag : Bool)
    (toggle : Option (ToolSculptCrease → ToolSculptCrease)) (t : ToolSculptCrease) :
    Bool × ToolSculptCrease :=
  match flag, e.type with
  | _, MouseEventType.Press =>
      if t.overMesh e then
        let t1 := { t with phase := StrokePhase.Pressed, captured := some t.brush.parameters }
        match toggle with
        | some f => (true, if e.modifier then f t1 else t1)
        | none   => (true, t1)
      else (false, t)
  | _, MouseEventType.Move =>
      if t.phase = StrokePhase.Pressed ∨ t.phase = StrokePhase.Dragging then
        if t.overMesh e then
          (true, { t with phase := StrokePhase.Dragging, steps := t.steps + 1 })
        else (false, { t with phase := StrokePhase.Dragging })
      else (false, t)
  | _, MouseEventType.Release =>
      if t.phase = StrokePhase.Pressed ∨ t.phase = StrokePhase.Dragging then
        (false, { t with phase := StrokePhase.Released })
      else (false, t)

/-- Embeds `bool runMouseEvent (const QMouseEvent& e)`. -/
def runMouseEvent (e : QMouseEvent) (t : ToolSculptCrease) : Bool × ToolSculptCrease :=
  carvelikeStroke e true (some toggleInvert) t

/-- Embeds `void runSculptMouseMoveEvent (const QMouseEvent& e)`. -/
def runSculptMouseMoveEvent (e : QMouseEvent) (t : ToolSculptCrease) : ToolSculptCrease :=
  (runMouseEvent e t).2

/-- Embeds `bool runSculptMousePressEvent (const QMouseEvent& e)`. -/
def runSculptMousePressEvent (e : QMouseEvent) (t : ToolSculptCrease) :
    Bool × ToolSculptCrease :=
  runMouseEvent e t

/-- Modelled from the spec: the dispatch of `ToolSculpt` (`tool/sculpt.cpp` is not
among the sources) of a pointer event to the crease tool: a press goes to
`runSculptMousePressEvent`, a move to `runSculptMouseMoveEvent`; a release ends
the stroke. -/
def handle (t : ToolSculptCrease) (e : QMouseEvent) : ToolSculptCrease :=
  match e.type with
  | MouseEventType.Press   => (runSculptMousePressEvent e t).2
  | MouseEventType.Move    => runSculptMouseMoveEvent e t
  | MouseEventType.Release => (carvelikeStroke e true none t).2

/-- A press that toggles: a pointer-down over a mesh accompanied by the modifier. -/
def qualifies (t : ToolSculptCrease) (e : QMouseEvent) : Bool :=
  decide (e.type = MouseEventType.Press) && e.modifier && t.overMesh e

end ToolSculptCrease

/-- A crease tool over the empty cache whose picking reports a hit exactly for
pointer positions with `0 ≤ x`. -/
def toyCrease : ToolSculptCrease :=
  { cache := Cache.empty
    brush := ⟨1, ⟨1 / 2, false⟩⟩
    overMesh := fun e => decide (0 ≤ e.x)
    phase := StrokePhase.Idle
    captured := none
    toggles := 0
    steps := 0 }

/-- The crease tool `toyCrease` over a store that holds `intensity ↦ 3/4`. -/
def toyCreaseStored : ToolSculptCrease :=
  { toyCrease with cache := Cache.empty.setFloat "intensity" (3 / 4) }

/-- A stroke: press with modifier, two moves with modifier, release. -/
def toyStroke : List QMouseEvent :=
  [ ⟨MouseButton.LeftButton, 1, 1, MouseEventType.Press, true⟩
  , ⟨MouseButton.LeftButton, 2, 1, MouseEventType.Move, true⟩
  , ⟨MouseButton.LeftButton, 3, 1, MouseEventType.Move, true⟩
  , ⟨MouseButton.LeftButton, 3, 1, MouseEventType.Release, true⟩ ]

/-! ## `partial-action/triangulate-6-gon.hpp` -/

/-- A half-edge of the winged-edge mesh (§3 of the specification): its origin
vertex, the face it borders, its twin and its successor and predecessor around
the face; all are indices into the arenas of the mesh (§9).  The rotation around
a vertex is `twin ∘ prev` and is not stored. -/
structure HalfEdge where
  origin : Nat
  face   : Nat
  twin   : Nat
  next   : Nat
  prev   : Nat
  deriving DecidableEq, Repr

/-- A face: one bounding half-edge and the degree. -/
structure WingedFace where
  edge   : Nat
  degree : Nat
  deriving DecidableEq, Repr

/-- Modelled from the spec: the `WingedMesh` (`winged/mesh.hpp` is not among the
sources), as the half-edge topology of §3 stored in indexed arenas (§9):
half-edges `0 .. numEdges - 1`, faces `0 .. numFaces - 1`, and the even/odd tag
of the vertices (`isEven v` when `v` existed before the current subdivision
step).  Positions are not part of the topology and are left out. -/
structure WingedMesh where
  numEdges : Nat
  numFaces : Nat
  edges    : Nat → HalfEdge
  faces    : Nat → WingedFace
  isEven   : Nat → Bool

namespace WingedMesh

/-- The half-edge reached from `e` by `k` steps of `next`. -/
def nextN (m : WingedMesh) : Nat → Nat → Nat
  | 0,     e => e
  | k + 1, e => m.nextN k (m.edges e).next

/-- The first `k` half-edges met when walking `next` from `e`. -/
def walk (m : WingedMesh) : Nat → Nat → List Nat
  | 0,     _ => []
  | k + 1, e => e :: m.walk k (m.edges e).next

/-- The half-edges around face `f`, from its bounding half-edge, in `next` order. -/
def faceEdges (m : WingedMesh) (f : Nat) : List Nat :=
  m.walk (m.faces f).degree (m.faces f).edge

/-- The vertices around face `f`: the origins of its half-edges, in order. -/
def faceVertices (m : WingedMesh) (f : Nat) : List Nat :=
  (m.faceEdges f).map (fun e => (m.edges e).origin)

/-- Face `f` is a well-formed polygon of degree `d` (the invariants of §3, for
this face): it has degree `d`; walking `next` from its bounding half-edge returns
to the start after exactly `d` steps (after `d` steps, and the `d` half-edges
met are distinct); each of them is a half-edge of the mesh that borders `f`, is
the predecessor of its successor, and has a twin in the mesh, on another face,
whose twin it is. -/
def isPolygon (m : WingedMesh) (f d : Nat) : Prop :=
  f < m.numFaces ∧
  (m.faces f).degree = d ∧
  m.nextN d (m.faces f).edge = (m.faces f).edge ∧
  (m.faceEdges f).Nodup ∧
  ∀ e ∈ m.faceEdges f,
    e < m.numEdges ∧
    (m.edges e).face = f ∧
    (m.edges (m.edges e).next).prev = e ∧
    (m.edges e).twin < m.numEdges ∧
    (m.edges e).twin ∉ m.faceEdges f ∧
    (m.edges (m.edges e).twin).twin = e

instance (m : WingedMesh) (f d : Nat) : Decidable (m.isPolygon f d) := by
  unfold isPolygon; infer_instance

/-- The half-edges around the faces `fs`, face after face. -/
def facesEdges (m : WingedMesh) (fs : List Nat) : List Nat :=
  fs.flatMap m.faceEdges

/-- The outer boundary of the region made of the faces `fs`: the half-edges around
these faces whose twin is not around one of them. -/
def outerBoundary (m : WingedMesh) (fs : List Nat) : List Nat :=
  (m.facesEdges fs).filter (fun e => decide ((m.edges e).twin ∉ m.facesEdges fs))

end WingedMesh

namespace PATriangulate6Gon

/-- The half-edges of the mesh after the split of the hexagon `e0 .. e5` of face
`f`: three interior edges `v2 — v0`, `v4 — v2`, `v0 — v4` are added as the six
half-edges `k .. k + 5`; the corner triangles are the new faces `a`, `a + 1`,
`a + 2` and the central triangle takes the place of `f`. -/
def rewire (m : WingedMesh) (f e0 e1 e2 e3 e4 e5 : Nat) : Nat → HalfEdge :=
  let k  := m.numEdges
  let a  := m.numFaces
  let v0 := (m.edges e0).origin
  let v2 := (m.edges e2).origin
  let v4 := (m.edges e4).origin
  fun x =>
    if k ≤ x then
      match x - k with
      | 0 => { origin := v2, face := a,     twin := k + 1, next := e0,    prev := e1 }
      | 1 => { origin := v0, face := f,     twin := k,     next := k + 3, prev := k + 5 }
      | 2 => { origin := v4, face := a + 1, twin := k + 3, next := e2,    prev := e3 }
      | 3 => { origin := v2, face := f,     twin := k + 2, next := k + 5, prev := k + 1 }
      | 4 => { origin := v0, face := a + 2, twin := k + 5, next := e4,    prev := e5 }
      | 5 => { origin := v4, face := f,     twin := k + 4, next := k + 1, prev := k + 3 }
      | _ => m.edges x
    else if x = e5 then { m.edges e5 with face := a + 2, next := k + 4 }
    else if x = e4 then { m.edges e4 with face := a + 2, prev := k + 4 }
    else if x = e3 then { m.edges e3 with face := a + 1, next := k + 2 }
    else if x = e2 then { m.edges e2 with face := a + 1, prev := k + 2 }
    else if x = e1 then { m.edges e1 with face := a,     next := k }
    else if x = e0 then { m.edges e0 with face := a,     prev := k }
    else m.edges x

/-- The faces of the mesh after the split: `f` becomes the central triangle, the
corner triangles are `a`, `a + 1`, `a + 2`. -/
def refaces (m : WingedMesh) (f e0 e2 e4 : Nat) : Nat → WingedFace :=
  let k := m.numEdges
  let a := m.numFaces
  fun g =>
    if g = a then ⟨e0, 3⟩
    else if g = a + 1 then ⟨e2, 3⟩
    else if g = a + 2 then ⟨e4, 3⟩
    else if g = f then ⟨k + 1, 3⟩
    else m.faces g

/-- Modelled from the spec: `PATriangulate6Gon::run (mesh, f, n)` (only its
declaration is among the sources), the operation `triangulateHexagon` of §4.2.
With `v0 .. v5` the vertices around `f` from `v0 = f.edge ()->firstVertex (f)`:
the hexagon is replaced by the four triangles `{v0,v1,v2}`, `{v2,v3,v4}`,
`{v4,v5,v0}` and the central `{v0,v2,v4}` (§4.2, §8), all half-edge links are
rewired, the result `r` is the face that takes the place of `f`, and `r` and the
ids of the new faces are appended to `n` when it is supplied.  A face that is not
a 6-gon, or whose first vertex is not even, is a precondition violation (§7):
`none`. -/
def run (m : WingedMesh) (f : Nat) (n : Option (List Nat)) :
    Option (WingedMesh × Nat × Option (List Nat)) :=
  let e0 := (m.faces f).edge
  let e1 := (m.edges e0).next
  let e2 := (m.edges e1).next
  let e3 := (m.edges e2).next
  let e4 := (m.edges e3).next
  let e5 := (m.edges e4).next
  if (m.faces f).degree = 6 ∧ m.isEven (m.edges e0).origin = true then
    some ( { m with numEdges := m.numEdges + 6
                    numFaces := m.numFaces + 3
                    edges    := rewire m f e0 e1 e2 e3 e4 e5
                    faces    := refaces m f e0 e2 e4 }
         , f
         , n.map (fun ids => ids ++ [f, m.numFaces, m.numFaces + 1, m.numFaces + 2]) )
  else none

end PATriangulate6Gon

/-- A hexagon (face `0`, half-edges `0 .. 5`, vertices `10 .. 15`, the even ones
being `10`, `12`, `14`) whose six neighbours are not described further: the twin
of half-edge `i` is `6 + i`, on face `1 + i`. -/
def toyHexagon : WingedMesh where
  numEdges := 12
  numFaces := 7
  edges x :=
    if x < 6 then ⟨10 + x, 0, 6 + x, (x + 1) % 6, (x + 5) % 6⟩
    else ⟨10 + (x - 5) % 6, x - 5, x - 6, x, x⟩
  faces g := if g = 0 then ⟨0, 6⟩ else ⟨5 + g, 1⟩
  isEven v := v % 2 == 0

/-! # Properties -/

/-! ## Helper lemmas -/

section Helpers

variable {S : Type}

theorem ToolDeleteSketch.run_not_left (ops : SceneOps S) (t : ToolDeleteSketch)
    (e : QMouseEvent) (w : World S) (hb : e.button ≠ MouseButton.LeftButton) :
    ToolDeleteSketch.runMouseReleaseEvent ops t e w = (ToolResponse.None, w) := by
  simp [ToolDeleteSketch.runMouseReleaseEvent, hb]

/-- The handler on a left-button release, as a function of the picking result and
of the emptiness test: the list of calls, the final scene and the snapshots. -/
theorem ToolDeleteSketch.run_left (ops : SceneOps S) (t : ToolDeleteSketch)
    (e : QMouseEvent) (w : World S) (hb : e.button = MouseButton.LeftButton) :
    (ToolDeleteSketch.runMouseReleaseEvent ops t e w).1 = ToolResponse.Redraw ∧
    (ToolDeleteSketch.pick ops t e w.scene = none →
      ToolDeleteSketch.runMouseReleaseEvent ops t e w
        = (ToolResponse.Redraw, ⟨w.scene, w.snapshots, w.log ++ [Call.intersectsScene]⟩)) ∧
    (∀ mesh target, ToolDeleteSketch.pick ops t e w.scene = some (mesh, target) →
      (ToolDeleteSketch.runMouseReleaseEvent ops t e w).2.snapshots = w.scene :: w.snapshots ∧
      (t.mode = Mode.DeleteMesh →
        (ToolDeleteSketch.runMouseReleaseEvent ops t e w).2.log
          = w.log ++ [Call.intersectsScene, Call.snapshotSketchMeshes,
                      Call.sceneDeleteMesh mesh] ∧
        (ToolDeleteSketch.runMouseReleaseEvent ops t e w).2.scene
          = ops.deleteMesh w.scene mesh) ∧
      (t.mode ≠ Mode.DeleteMesh →
        ops.isEmpty (ToolDeleteSketch.afterDeletion ops t w.scene mesh target) mesh = true →
        (ToolDeleteSketch.runMouseReleaseEvent ops t e w).2.log
          = w.log ++ [Call.intersectsScene, Call.snapshotSketchMeshes,
                      ToolDeleteSketch.deletionCall t mesh target, Call.meshIsEmpty mesh,
                      Call.sceneDeleteMesh mesh] ∧
        (ToolDeleteSketch.runMouseReleaseEvent ops t e w).2.scene
          = ops.deleteMesh (ToolDeleteSketch.afterDeletion ops t w.scene mesh target) mesh) ∧
      (t.mode ≠ Mode.DeleteMesh →
        ops.isEmpty (ToolDeleteSketch.afterDeletion ops t w.scene mesh target) mesh = false →
        (ToolDeleteSketch.runMouseReleaseEvent ops t e w).2.log
          = w.log ++ [Call.intersectsScene, Call.snapshotSketchMeshes,
                      ToolDeleteSketch.deletionCall t mesh target, Call.meshIsEmpty mesh] ∧
        (ToolDeleteSketch.runMouseReleaseEvent ops t e w).2.scene
          = ToolDeleteSketch.afterDeletion ops t w.scene mesh target)) := by
  cases hm : t.mode
  · refine ⟨?_, ?_, ?_⟩
    · cases hi : ops.intersectsMesh w.scene e <;>
        simp [ToolDeleteSketch.runMouseReleaseEvent, hb, hm, World.intersectsMesh, hi]
    · intro hp
      cases hi : ops.intersectsMesh w.scene e <;>
        simp_all [ToolDeleteSketch.runMouseReleaseEvent, ToolDeleteSketch.pick,
          World.intersectsMesh, World.call]
    · intro mesh target hp
      cases hi : ops.intersectsMesh w.scene e <;>
        simp_all [ToolDeleteSketch.runMouseReleaseEvent, ToolDeleteSketch.pick,
          World.intersectsMesh, World.call, World.snapshotSketchMeshes,
          World.sceneDeleteMesh]
  · refine ⟨?_, ?_, ?_⟩
    · rcases hi : ops.intersectsNode w.scene e with _ | ⟨m, n⟩
      · simp [ToolDeleteSketch.runMouseReleaseEvent, hb, hm, World.intersectsNode, hi]
      · cases he : ops.isEmpty
            (ops.deleteNode w.scene m n t.deleteChildren t.mirrorDimension) m <;>
          simp [ToolDeleteSketch.runMouseReleaseEvent, hb, hm, World.intersectsNode, hi,
            World.meshIsEmpty, World.meshDeleteNode, World.snapshotSketchMeshes,
            World.call, he]
    · intro hp
      simp_all [ToolDeleteSketch.runMouseReleaseEvent, ToolDeleteSketch.pick,
          World.intersectsNode, World.call]
    · intro mesh target hp
      have hi : ops.intersectsNode w.scene e = some (mesh, target) := by
        simpa [ToolDeleteSketch.pick, hm] using hp
      refine ⟨?_, by simp, ?_, ?_⟩
      · cases he : ops.isEmpty
            (ops.deleteNode w.scene mesh target t.deleteChildren t.mirrorDimension) mesh <;>
          simp [ToolDeleteSketch.runMouseReleaseEvent, hb, hm, World.intersectsNode, hi,
            World.meshIsEmpty, World.meshDeleteNode, World.snapshotSketchMeshes,
            World.sceneDeleteMesh, World.call, he]
      · intro _ he
        simp only [ToolDeleteSketch.afterDeletion, hm] at he
        simp [ToolDeleteSketch.runMouseReleaseEvent, hb, hm, World.intersectsNode, hi,
            World.meshIsEmpty, World.meshDeleteNode, World.snapshotSketchMeshes,
            World.sceneDeleteMesh, World.call, he, ToolDeleteSketch.afterDeletion,
            ToolDeleteSketch.deletionCall]
      · intro _ he
        simp only [ToolDeleteSketch.afterDeletion, hm] at he
        simp [ToolDeleteSketch.runMouseReleaseEvent, hb, hm, World.intersectsNode, hi,
            World.meshIsEmpty, World.meshDeleteNode, World.snapshotSketchMeshes,
            World.sceneDeleteMesh, World.call, he, ToolDeleteSketch.afterDeletion,
            ToolDeleteSketch.deletionCall]
  · refine ⟨?_, ?_, ?_⟩
    · rcases hi : ops.intersectsPath w.scene e with _ | ⟨m, n⟩
      · simp [ToolDeleteSketch.runMouseReleaseEvent, hb, hm, World.intersectsPath, hi]
      · cases he : ops.isEmpty (ops.deletePath w.scene m n t.mirrorDimension) m <;>
          simp [ToolDeleteSketch.runMouseReleaseEvent, hb, hm, World.intersectsPath, hi,
            World.meshIsEmpty, World.meshDeletePath, World.snapshotSketchMeshes,
            World.call, he]
    · intro hp
      simp_all [ToolDeleteSketch.runMouseReleaseEvent, ToolDeleteSketch.pick,
          World.intersectsPath, World.call]
    · intro mesh target hp
      have hi : ops.intersectsPath w.scene e = some (mesh, target) := by
        simpa [ToolDeleteSketch.pick, hm] using hp
      refine ⟨?_, by simp, ?_, ?_⟩
      · cases he : ops.isEmpty (ops.deletePath w.scene mesh target t.mirrorDimension) mesh <;>
          simp [ToolDeleteSketch.runMouseReleaseEvent, hb, hm, World.intersectsPath, hi,
            World.meshIsEmpty, World.meshDeletePath, World.snapshotSketchMeshes,
            World.sceneDeleteMesh, World.call, he]
      · intro _ he
        simp only [ToolDeleteSketch.afterDeletion, hm] at he
        simp [ToolDeleteSketch.runMouseReleaseEvent, hb, hm, World.intersectsPath, hi,
            World.meshIsEmpty, World.meshDeletePath, World.snapshotSketchMeshes,
            World.sceneDeleteMesh, World.call, he, ToolDeleteSketch.afterDeletion,
            ToolDeleteSketch.deletionCall]
      · intro _ he
        simp only [ToolDeleteSketch.afterDeletion, hm] at he
        simp [ToolDeleteSketch.runMouseReleaseEvent, hb, hm, World.intersectsPath, hi,
            World.meshIsEmpty, World.meshDeletePath, World.snapshotSketchMeshes,
            World.sceneDeleteMesh, World.call, he, ToolDeleteSketch.afterDeletion,
            ToolDeleteSketch.deletionCall]

end Helpers

/-! ## The delete tool: mouse release -/

section DeleteRelease

variable {S : Type}

/-- C1: on a left-button release whose picking query hits a target, in each of the
three modes, the calls of the event contain `snapshotSketchMeshes` exactly once,
no deletion call (`scene.deleteMesh`, `mesh.deleteNode`, `mesh.deletePath`)
precedes it, at least one deletion call follows it, and the snapshot taken is
the scene as it was before the event. -/
theorem C1_snapshot_once_before_deletions (ops : SceneOps S) (t : ToolDeleteSketch)
    (e : QMouseEvent) (w : World S) (mesh target : Nat)
    (hb : e.button = MouseButton.LeftButton)
    (hp : ToolDeleteSketch.pick ops t e w.scene = some (mesh, target)) :
    ∃ calls pre post,
      (ToolDeleteSketch.runMouseReleaseEvent ops t e w).2.log = w.log ++ calls ∧
      calls = pre ++ Call.snapshotSketchMeshes :: post ∧
      calls.count Call.snapshotSketchMeshes = 1 ∧
      (∀ c ∈ pre, c.isDeletion = false) ∧
      (∃ c ∈ post, c.isDeletion = true) ∧
      (ToolDeleteSketch.runMouseReleaseEvent ops t e w).2.snapshots
        = w.scene :: w.snapshots := by
  obtain ⟨_, _, h⟩ := ToolDeleteSketch.run_left ops t e w hb
  obtain ⟨hs, hmesh, hemp, hne⟩ := h mesh target hp
  by_cases hm : t.mode = Mode.DeleteMesh
  · refine ⟨_, [Call.intersectsScene], [Call.sceneDeleteMesh mesh], (hmesh hm).1, rfl,
      by simp [List.count_cons], by simp [Call.isDeletion], ?_, hs⟩
    exact ⟨_, List.mem_singleton.mpr rfl, rfl⟩
  · have hdel : (ToolDeleteSketch.deletionCall t mesh target).isDeletion = true := by
      cases hm2 : t.mode <;> simp [ToolDeleteSketch.deletionCall, hm2, Call.isDeletion]
    have hns : ToolDeleteSketch.deletionCall t mesh target ≠ Call.snapshotSketchMeshes := by
      intro h; rw [h] at hdel; simp [Call.isDeletion] at hdel
    cases he : ops.isEmpty (ToolDeleteSketch.afterDeletion ops t w.scene mesh target) mesh
    · refine ⟨_, [Call.intersectsScene],
        [ToolDeleteSketch.deletionCall t mesh target, Call.meshIsEmpty mesh],
        (hne hm he).1, rfl, ?_, by simp [Call.isDeletion], ?_, hs⟩
      · simp [List.count_cons, hns]
      · exact ⟨_, List.mem_cons_self _ _, hdel⟩
    · refine ⟨_, [Call.intersectsScene],
        [ToolDeleteSketch.deletionCall t mesh target, Call.meshIsEmpty mesh,
          Call.sceneDeleteMesh mesh],
        (hemp hm he).1, rfl, ?_, by simp [Call.isDeletion], ?_, hs⟩
      · simp [List.count_cons, hns]
      · exact ⟨_, List.mem_cons_self _ _, hdel⟩

/-- Witness for C1: mode `DeleteNode`, the only node of mesh `0` is hit. -/
theorem C1_snapshot_once_before_deletions_witness :
    ∃ calls pre post,
      (ToolDeleteSketch.runMouseReleaseEvent toyOps (toyTool Mode.DeleteNode)
          (releaseAt 0 5) (toyWorld [[5], [1, 2]])).2.log
        = (toyWorld [[5], [1, 2]]).log ++ calls ∧
      calls = pre ++ Call.snapshotSketchMeshes :: post ∧
      calls.count Call.snapshotSketchMeshes = 1 ∧
      (∀ c ∈ pre, c.isDeletion = false) ∧
      (∃ c ∈ post, c.isDeletion = true) ∧
      (ToolDeleteSketch.runMouseReleaseEvent toyOps (toyTool Mode.DeleteNode)
          (releaseAt 0 5) (toyWorld [[5], [1, 2]])).2.snapshots
        = (toyWorld [[5], [1, 2]]).scene :: (toyWorld [[5], [1, 2]]).snapshots :=
  C1_snapshot_once_before_deletions toyOps (toyTool Mode.DeleteNode)
    (releaseAt 0 5) (toyWorld [[5], [1, 2]]) 0 5 rfl (by decide)

/-- C2: on a left-button release in mode `DeleteNode` or `DeleteSpheres` that hits
a node or path of `mesh`, `scene.deleteMesh mesh` is among the calls of the event
if and only if `mesh.isEmpty ()` is true on the scene left by the
`deleteNode`/`deletePath` call; when it is, it is the last call, after the
deletion and the emptiness test; when it is not, no `scene.deleteMesh` call is
made at all and the final scene is the one left by the deletion. -/
theorem C2_deleteMesh_iff_empty_after_deletion (ops : SceneOps S) (t : ToolDeleteSketch)
    (e : QMouseEvent) (w : World S) (mesh target : Nat)
    (hb : e.button = MouseButton.LeftButton)
    (hm : t.mode = Mode.DeleteNode ∨ t.mode = Mode.DeleteSpheres)
    (hp : ToolDeleteSketch.pick ops t e w.scene = some (mesh, target)) :
    ∃ calls,
      (ToolDeleteSketch.runMouseReleaseEvent ops t e w).2.log = w.log ++ calls ∧
      (Call.sceneDeleteMesh mesh ∈ calls ↔
        ops.isEmpty (ToolDeleteSketch.afterDeletion ops t w.scene mesh target) mesh = true) ∧
      (ops.isEmpty (ToolDeleteSketch.afterDeletion ops t w.scene mesh target) mesh = true →
        calls = [Call.intersectsScene, Call.snapshotSketchMeshes,
                 ToolDeleteSketch.deletionCall t mesh target, Call.meshIsEmpty mesh,
                 Call.sceneDeleteMesh mesh] ∧
        (ToolDeleteSketch.deletionCall t mesh target).isStructuralDeletion = true ∧
        (ToolDeleteSketch.runMouseReleaseEvent ops t e w).2.scene
          = ops.deleteMesh (ToolDeleteSketch.afterDeletion ops t w.scene mesh target) mesh) ∧
      (ops.isEmpty (ToolDeleteSketch.afterDeletion ops t w.scene mesh target) mesh = false →
        (∀ c ∈ calls, c.isSceneDeleteMesh = false) ∧
        (ToolDeleteSketch.runMouseReleaseEvent ops t e w).2.scene
          = ToolDeleteSketch.afterDeletion ops t w.scene mesh target) := by
  obtain ⟨_, _, h⟩ := ToolDeleteSketch.run_left ops t e w hb
  obtain ⟨_, _, hemp, hne⟩ := h mesh target hp
  have hm2 : t.mode ≠ Mode.DeleteMesh := by
    rcases hm with h | h <;> simp [h]
  have hdel : (ToolDeleteSketch.deletionCall t mesh target).isStructuralDeletion = true ∧
      (ToolDeleteSketch.deletionCall t mesh target).isSceneDeleteMesh = false := by
    rcases hm with h | h <;>
      simp [ToolDeleteSketch.deletionCall, h, Call.isStructuralDeletion,
        Call.isSceneDeleteMesh]
  have hdne : Call.sceneDeleteMesh mesh ≠ ToolDeleteSketch.deletionCall t mesh target := by
    intro h; have := hdel.2; rw [← h] at this; simp [Call.isSceneDeleteMesh] at this
  cases he : ops.isEmpty (ToolDeleteSketch.afterDeletion ops t w.scene mesh target) mesh
  · refine ⟨_, (hne hm2 he).1, ?_, by simp, ?_⟩
    · simp [hdne]
    · intro _
      refine ⟨?_, (hne hm2 he).2⟩
      intro c hc
      simp only [List.mem_cons, List.mem_singleton, List.not_mem_nil, or_false] at hc
      rcases hc with rfl | rfl | rfl | rfl
      · rfl
      · rfl
      · exact hdel.2
      · rfl
  · refine ⟨_, (hemp hm2 he).1, by simp, ?_, by simp⟩
    intro _
    exact ⟨rfl, hdel.1, (hemp hm2 he).2⟩

/-- Witness for C2: mode `DeleteSpheres`, path `2` of mesh `1` is hit and the mesh
is not empty afterwards. -/
theorem C2_deleteMesh_iff_empty_after_deletion_witness :
    ∃ calls,
      (ToolDeleteSketch.runMouseReleaseEvent toyOps (toyTool Mode.DeleteSpheres)
          (releaseAt 1 2) (toyWorld [[5], [1, 2]])).2.log
        = (toyWorld [[5], [1, 2]]).log ++ calls ∧
      (Call.sceneDeleteMesh 1 ∈ calls ↔
        toyOps.isEmpty (ToolDeleteSketch.afterDeletion toyOps (toyTool Mode.DeleteSpheres)
          (toyWorld [[5], [1, 2]]).scene 1 2) 1 = true) ∧
      (toyOps.isEmpty (ToolDeleteSketch.afterDeletion toyOps (toyTool Mode.DeleteSpheres)
          (toyWorld [[5], [1, 2]]).scene 1 2) 1 = true →
        calls = [Call.intersectsScene, Call.snapshotSketchMeshes,
                 ToolDeleteSketch.deletionCall (toyTool Mode.DeleteSpheres) 1 2,
                 Call.meshIsEmpty 1, Call.sceneDeleteMesh 1] ∧
        (ToolDeleteSketch.deletionCall (toyTool Mode.DeleteSpheres) 1 2).isStructuralDeletion
          = true ∧
        (ToolDeleteSketch.runMouseReleaseEvent toyOps (toyTool Mode.DeleteSpheres)
          (releaseAt 1 2) (toyWorld [[5], [1, 2]])).2.scene
          = toyOps.deleteMesh (ToolDeleteSketch.afterDeletion toyOps
              (toyTool Mode.DeleteSpheres) (toyWorld [[5], [1, 2]]).scene 1 2) 1) ∧
      (toyOps.isEmpty (ToolDeleteSketch.afterDeletion toyOps (toyTool Mode.DeleteSpheres)
          (toyWorld [[5], [1, 2]]).scene 1 2) 1 = false →
        (∀ c ∈ calls, c.isSceneDeleteMesh = false) ∧
        (ToolDeleteSketch.runMouseReleaseEvent toyOps (toyTool Mode.DeleteSpheres)
          (releaseAt 1 2) (toyWorld [[5], [1, 2]])).2.scene
          = ToolDeleteSketch.afterDeletion toyOps (toyTool Mode.DeleteSpheres)
              (toyWorld [[5], [1, 2]]).scene 1 2) :=
  C2_deleteMesh_iff_empty_after_deletion toyOps (toyTool Mode.DeleteSpheres)
    (releaseAt 1 2) (toyWorld [[5], [1, 2]]) 1 2 rfl (Or.inr rfl) (by decide)

/-- C3: for every mouse release, the handler makes the picking query at most once;
when the button is not the left one, or the query reports no intersection, the
calls contain no snapshot and no deletion call and scene and snapshots are
unchanged; and the handler returns `Redraw` for the left button and `None` for
any other button. -/
theorem C3_no_hit_no_mutation (ops : SceneOps S) (t : ToolDeleteSketch)
    (e : QMouseEvent) (w : World S) :
    ∃ calls,
      (ToolDeleteSketch.runMouseReleaseEvent ops t e w).2.log = w.log ++ calls ∧
      calls.count Call.intersectsScene ≤ 1 ∧
      ((e.button ≠ MouseButton.LeftButton ∨ ToolDeleteSketch.pick ops t e w.scene = none) →
        (∀ c ∈ calls, c ≠ Call.snapshotSketchMeshes ∧ c.isDeletion = false) ∧
        (ToolDeleteSketch.runMouseReleaseEvent ops t e w).2.scene = w.scene ∧
        (ToolDeleteSketch.runMouseReleaseEvent ops t e w).2.snapshots = w.snapshots) ∧
      (ToolDeleteSketch.runMouseReleaseEvent ops t e w).1
        = (if e.button = MouseButton.LeftButton then ToolResponse.Redraw
           else ToolResponse.None) := by
  by_cases hb : e.button = MouseButton.LeftButton
  · obtain ⟨hr, hnone, h⟩ := ToolDeleteSketch.run_left ops t e w hb
    cases hp : ToolDeleteSketch.pick ops t e w.scene with
    | none =>
      refine ⟨[Call.intersectsScene], ?_, by simp, ?_, by simp [hr, hb]⟩
      · rw [hnone hp]
      · intro _
        rw [hnone hp]
        simp [Call.isDeletion]
    | some p =>
      obtain ⟨mesh, target⟩ := p
      obtain ⟨_, hmesh, hemp, hne⟩ := h mesh target hp
      have hdi : ToolDeleteSketch.deletionCall t mesh target ≠ Call.intersectsScene := by
        cases hm2 : t.mode <;> simp [ToolDeleteSketch.deletionCall, hm2]
      by_cases hm : t.mode = Mode.DeleteMesh
      · exact ⟨_, (hmesh hm).1, by simp [List.count_cons], by simp [hb], by simp [hr, hb]⟩
      · cases he : ops.isEmpty (ToolDeleteSketch.afterDeletion ops t w.scene mesh target) mesh
        · exact ⟨_, (hne hm he).1, by simp [List.count_cons, hdi], by simp [hb],
            by simp [hr, hb]⟩
        · exact ⟨_, (hemp hm he).1, by simp [List.count_cons, hdi], by simp [hb],
            by simp [hr, hb]⟩
  · rw [ToolDeleteSketch.run_not_left ops t e w hb]
    exact ⟨[], by simp, by simp, by simp, by simp [hb]⟩

/-- Witness for C3: a left-button release that hits nothing. -/
theorem C3_no_hit_no_mutation_witness :
    ToolDeleteSketch.pick toyOps (toyTool Mode.DeleteNode) (releaseAt 0 7)
        (toyWorld [[5], [1, 2]]).scene = none ∧
    ∃ calls,
      (ToolDeleteSketch.runMouseReleaseEvent toyOps (toyTool Mode.DeleteNode)
          (releaseAt 0 7) (toyWorld [[5], [1, 2]])).2.log
        = (toyWorld [[5], [1, 2]]).log ++ calls ∧
      calls.count Call.intersectsScene ≤ 1 ∧
      (((releaseAt 0 7).button ≠ MouseButton.LeftButton ∨
          ToolDeleteSketch.pick toyOps (toyTool Mode.DeleteNode)
            (releaseAt 0 7) (toyWorld [[5], [1, 2]]).scene = none) →
        (∀ c ∈ calls, c ≠ Call.snapshotSketchMeshes ∧ c.isDeletion = false) ∧
        (ToolDeleteSketch.runMouseReleaseEvent toyOps (toyTool Mode.DeleteNode)
          (releaseAt 0 7) (toyWorld [[5], [1, 2]])).2.scene
          = (toyWorld [[5], [1, 2]]).scene ∧
        (ToolDeleteSketch.runMouseReleaseEvent toyOps (toyTool Mode.DeleteNode)
          (releaseAt 0 7) (toyWorld [[5], [1, 2]])).2.snapshots
          = (toyWorld [[5], [1, 2]]).snapshots) ∧
      (ToolDeleteSketch.runMouseReleaseEvent toyOps (toyTool Mode.DeleteNode)
          (releaseAt 0 7) (toyWorld [[5], [1, 2]])).1
        = (if (releaseAt 0 7).button = MouseButton.LeftButton then ToolResponse.Redraw
           else ToolResponse.None) :=
  ⟨by decide,
   C3_no_hit_no_mutation toyOps (toyTool Mode.DeleteNode)
    (releaseAt 0 7) (toyWorld [[5], [1, 2]])⟩

end DeleteRelease

/-! ## The delete tool: modes, cache and widgets -/

theorem toMode_fromMode (m : Mode) : toMode (fromMode m) = some m := by
  cases m <;> rfl

theorem toMode_eq_none_iff (i : Int) : toMode i = none ↔ ¬ (i = 0 ∨ i = 1 ∨ i = 2) := by
  unfold toMode
  split_ifs <;> simp_all

theorem fromMode_of_toMode (i : Int) (m : Mode) (h : toMode i = some m) : fromMode m = i := by
  unfold toMode at h
  split_ifs at h <;> simp_all [fromMode] <;> subst h <;> rfl

theorem ToolDeleteSketch.modeStored_new (cache : Cache) (hm : Bool) (md : Option Dimension)
    (t : ToolDeleteSketch) (h : ToolDeleteSketch.new cache hm md = some t) :
    t.modeStored := by
  unfold ToolDeleteSketch.new at h
  cases hc : cache.ints "mode" with
  | none =>
    simp [Cache.getInt, hc, fromMode, toMode] at h
    subst h
    exact Or.inl ⟨hc, rfl⟩
  | some v =>
    simp only [Cache.getInt, hc] at h
    cases htm : toMode v with
    | none => simp [htm] at h
    | some m =>
      simp only [htm, Option.some.injEq] at h
      subst h
      right
      simp [ToolDeleteSketch.setupProperties, hc, fromMode_of_toMode v m htm]

theorem ToolDeleteSketch.modeStored_onWidget (t : ToolDeleteSketch)
    (ev : ToolDeleteSketch.WidgetEvent) (h : t.modeStored) : (t.onWidget ev).modeStored := by
  cases ev with
  | deleteChildren m =>
    simpa [ToolDeleteSketch.modeStored, ToolDeleteSketch.onWidget,
      ToolDeleteSketch.onDeleteChildren, Cache.setBool] using h
  | deleteMesh m =>
    right; simp [ToolDeleteSketch.onWidget, ToolDeleteSketch.onDeleteMesh, Cache.setInt]
  | deleteNode m =>
    right; simp [ToolDeleteSketch.onWidget, ToolDeleteSketch.onDeleteNode, Cache.setInt]
  | deleteSpheres m =>
    right; simp [ToolDeleteSketch.onWidget, ToolDeleteSketch.onDeleteSpheres, Cache.setInt]

theorem ToolDeleteSketch.modeStored_foldl (evs : List ToolDeleteSketch.WidgetEvent)
    (t : ToolDeleteSketch) (h : t.modeStored) :
    (evs.foldl ToolDeleteSketch.onWidget t).modeStored := by
  induction evs generalizing t with
  | nil => exact h
  | cons ev evs ih => exact ih _ (ToolDeleteSketch.modeStored_onWidget t ev h)

theorem ToolDeleteSketch.new_of_modeStored (t : ToolDeleteSketch) (h : t.modeStored)
    (hm : Bool) (md : Option Dimension) :
    ∃ u, ToolDeleteSketch.new t.cache hm md = some u ∧ u.mode = t.mode := by
  rcases h with ⟨hc, hmode⟩ | hc
  · refine ⟨ToolDeleteSketch.setupProperties t.cache Mode.DeleteNode
      (t.cache.getBool "delete-children" false) hm md, ?_, ?_⟩
    · simp only [ToolDeleteSketch.new, Cache.getInt, hc, toMode_fromMode]
    · simp [ToolDeleteSketch.setupProperties, hmode]
  · refine ⟨ToolDeleteSketch.setupProperties t.cache t.mode
      (t.cache.getBool "delete-children" false) hm md, ?_, ?_⟩
    · simp only [ToolDeleteSketch.new, Cache.getInt, hc, toMode_fromMode]
    · simp [ToolDeleteSketch.setupProperties]

/-- C7: with the empty preference store the delete tool is constructed (the
impossible branch of `toMode` is not reached) with `mode = DeleteNode` and
`deleteChildren = false`, and the crease tool's `runSetupBrush` sets
`intensity = 0.5` and `invert = false`. -/
theorem C7_empty_store_defaults :
    (∀ (hm : Bool) (md : Option Dimension),
      ∃ t, ToolDeleteSketch.new Cache.empty hm md = some t ∧
        t.mode = Mode.DeleteNode ∧ t.deleteChildren = false) ∧
    (∀ (t : ToolSculptCrease) (brush : SculptBrush),
      (({ t with cache := Cache.empty } : ToolSculptCrease).runSetupBrush brush).parameters.intensity
        = 1 / 2 ∧
      (({ t with cache := Cache.empty } : ToolSculptCrease).runSetupBrush brush).parameters.invert
        = false) := by
  refine ⟨?_, ?_⟩
  · intro hm md
    exact ⟨_, rfl, rfl, rfl⟩
  · intro t brush
    exact ⟨rfl, rfl⟩

/-- C9: `toMode (fromMode m) = m` for every mode, `fromMode (toMode i) = i` for
`i` in `{0,1,2}`, `toMode` reaches its impossible branch exactly outside
`{0,1,2}`; each mode radio-button callback writes `fromMode` of the mode it makes
active under `mode`; and after any sequence of widget callbacks on a constructed
tool, the next construction from the cache succeeds with the mode that was
active. -/
theorem C9_mode_round_trip :
    (∀ m : Mode, toMode (fromMode m) = some m) ∧
    (∀ i : Int, (i = 0 ∨ i = 1 ∨ i = 2) → (toMode i).map fromMode = some i) ∧
    (∀ i : Int, toMode i = none ↔ ¬ (i = 0 ∨ i = 1 ∨ i = 2)) ∧
    (∀ (t : ToolDeleteSketch) (b : Bool),
      (t.onDeleteMesh b).cache.ints "mode" = some (fromMode (t.onDeleteMesh b).mode) ∧
      (t.onDeleteNode b).cache.ints "mode" = some (fromMode (t.onDeleteNode b).mode) ∧
      (t.onDeleteSpheres b).cache.ints "mode"
        = some (fromMode (t.onDeleteSpheres b).mode)) ∧
    (∀ (cache : Cache) (hm : Bool) (md : Option Dimension) (t : ToolDeleteSketch)
       (evs : List ToolDeleteSketch.WidgetEvent) (hm2 : Bool) (md2 : Option Dimension),
      ToolDeleteSketch.new cache hm md = some t →
      ∃ u, ToolDeleteSketch.new (evs.foldl ToolDeleteSketch.onWidget t).cache hm2 md2 = some u ∧
        u.mode = (evs.foldl ToolDeleteSketch.onWidget t).mode) := by
  refine ⟨toMode_fromMode, ?_, toMode_eq_none_iff, ?_, ?_⟩
  · intro i hi
    rcases hi with rfl | rfl | rfl <;> rfl
  · intro t b
    simp [ToolDeleteSketch.onDeleteMesh, ToolDeleteSketch.onDeleteNode,
      ToolDeleteSketch.onDeleteSpheres, Cache.setInt]
  · intro cache hm md t evs hm2 md2 h
    exact ToolDeleteSketch.new_of_modeStored _
      (ToolDeleteSketch.modeStored_foldl evs t
        (ToolDeleteSketch.modeStored_new cache hm md t h)) hm2 md2

/-- Witness for C9: the tool built over the empty cache, then "Delete spheres"
selected and "Delete children" checked. -/
theorem C9_mode_round_trip_witness :
    ∃ u, ToolDeleteSketch.new
        ([ToolDeleteSketch.WidgetEvent.deleteSpheres true,
          ToolDeleteSketch.WidgetEvent.deleteChildren true].foldl
            ToolDeleteSketch.onWidget (toyTool Mode.DeleteNode)).cache false none = some u ∧
      u.mode =
        ([ToolDeleteSketch.WidgetEvent.deleteSpheres true,
          ToolDeleteSketch.WidgetEvent.deleteChildren true].foldl
            ToolDeleteSketch.onWidget (toyTool Mode.DeleteNode)).mode :=
  C9_mode_round_trip.2.2.2.2 Cache.empty false none (toyTool Mode.DeleteNode)
    [ToolDeleteSketch.WidgetEvent.deleteSpheres true,
     ToolDeleteSketch.WidgetEvent.deleteChildren true] false none rfl

/-- Counterexample to C10 as stated: on the tool built over the empty cache, the
"Delete mesh" callback invoked with `false` leaves the mode at `DeleteMesh` with
both check boxes enabled. -/
theorem C10_counterexample :
    ((toyTool Mode.DeleteNode).onDeleteMesh false).mode = Mode.DeleteMesh ∧
    ((toyTool Mode.DeleteNode).onDeleteMesh false).deleteChildrenEdit.enabled = true ∧
    ((toyTool Mode.DeleteNode).onDeleteMesh false).mirrorEdit.enabled = true ∧
    ¬ ((toyTool Mode.DeleteNode).onDeleteMesh false).widgetsConsistent := by
  refine ⟨rfl, rfl, rfl, ?_⟩
  simp [ToolDeleteSketch.widgetsConsistent, ToolDeleteSketch.onDeleteMesh, toyTool,
    ToolDeleteSketch.setupProperties]

/-- C10 (amended): right after construction (hence after `setupProperties`) and
after every invocation of one of the three mode radio-button callbacks with
argument `true`, "Delete children" is enabled iff `mode = DeleteNode` and
"Mirror" is enabled iff `mode ≠ DeleteMesh`; the "Delete children" callback
preserves this. -/
theorem C10_widgets_consistent_when_checked :
    (∀ (cache : Cache) (mode : Mode) (dc hm : Bool) (md : Option Dimension),
      (ToolDeleteSketch.setupProperties cache mode dc hm md).widgetsConsistent) ∧
    (∀ (cache : Cache) (hm : Bool) (md : Option Dimension) (t : ToolDeleteSketch),
      ToolDeleteSketch.new cache hm md = some t → t.widgetsConsistent) ∧
    (∀ t : ToolDeleteSketch,
      (t.onDeleteMesh true).widgetsConsistent ∧
      (t.onDeleteNode true).widgetsConsistent ∧
      (t.onDeleteSpheres true).widgetsConsistent) ∧
    (∀ (t : ToolDeleteSketch) (b : Bool),
      t.widgetsConsistent → (t.onDeleteChildren b).widgetsConsistent) := by
  have hsetup : ∀ (cache : Cache) (mode : Mode) (dc hm : Bool) (md : Option Dimension),
      (ToolDeleteSketch.setupProperties cache mode dc hm md).widgetsConsistent := by
    intro cache mode dc hm md
    cases mode <;> simp [ToolDeleteSketch.widgetsConsistent, ToolDeleteSketch.setupProperties]
  refine ⟨hsetup, ?_, ?_, ?_⟩
  · intro cache hm md t h
    unfold ToolDeleteSketch.new at h
    split at h
    · simp at h
    · simp only [Option.some.injEq] at h
      subst h
      exact hsetup _ _ _ _ _
  · intro t
    simp [ToolDeleteSketch.widgetsConsistent, ToolDeleteSketch.onDeleteMesh,
      ToolDeleteSketch.onDeleteNode, ToolDeleteSketch.onDeleteSpheres]
  · intro t b h
    simpa [ToolDeleteSketch.widgetsConsistent, ToolDeleteSketch.onDeleteChildren] using h

/-- Witness for C10 (amended): the tool constructed over the empty cache. -/
theorem C10_widgets_consistent_when_checked_witness :
    ToolDeleteSketch.new Cache.empty false none = some (toyTool Mode.DeleteNode) ∧
    (toyTool Mode.DeleteNode).widgetsConsistent ∧
    ((toyTool Mode.DeleteNode).onDeleteChildren true).widgetsConsistent :=
  ⟨rfl,
   C10_widgets_consistent_when_checked.2.1 Cache.empty false none (toyTool Mode.DeleteNode) rfl,
   C10_widgets_consistent_when_checked.2.2.2 (toyTool Mode.DeleteNode) true
     (C10_widgets_consistent_when_checked.1 Cache.empty Mode.DeleteNode false false none)⟩

/-! ## The crease tool -/

/-- In `crease.cpp` the move handler and the press handler are the same function
of the event: both are `runMouseEvent`. -/
theorem ToolSculptCrease.move_eq_press (e : QMouseEvent) (t : ToolSculptCrease) :
    t.runSculptMouseMoveEvent e = (t.runSculptMousePressEvent e).2 :=
  rfl

theorem ToolSculptCrease.handle_overMesh (t : ToolSculptCrease) (e : QMouseEvent) :
    (t.handle e).overMesh = t.overMesh := by
  unfold ToolSculptCrease.handle ToolSculptCrease.runSculptMousePressEvent
    ToolSculptCrease.runSculptMouseMoveEvent ToolSculptCrease.runMouseEvent
    ToolSculptCrease.carvelikeStroke
  cases e.type <;> simp only <;> split_ifs <;> simp [ToolSculptCrease.toggleInvert]

/-- One event of a stroke: the toggle is invoked once if the event qualifies and
not at all otherwise. -/
theorem ToolSculptCrease.handle_toggles (t : ToolSculptCrease) (e : QMouseEvent) :
    (t.handle e).toggles = t.toggles + (if t.qualifies e then 1 else 0) ∧
    (t.handle e).brush.parameters.invert
      = (t.brush.parameters.invert ^^ t.qualifies e) := by
  unfold ToolSculptCrease.handle ToolSculptCrease.runSculptMousePressEvent
    ToolSculptCrease.runSculptMouseMoveEvent ToolSculptCrease.runMouseEvent
    ToolSculptCrease.carvelikeStroke ToolSculptCrease.qualifies
  cases he : e.type <;> simp only <;> split_ifs <;>
    simp_all [ToolSculptCrease.toggleInvert, SBCreaseParameters.toggleInvert]

theorem ToolSculptCrease.qualifies_handle (t : ToolSculptCrease) (e : QMouseEvent) :
    (t.handle e).qualifies = t.qualifies := by
  funext e2
  simp [ToolSculptCrease.qualifies, ToolSculptCrease.handle_overMesh]

theorem ToolSculptCrease.foldl_toggles (es : List QMouseEvent) (t : ToolSculptCrease) :
    (es.foldl ToolSculptCrease.handle t).toggles = t.toggles + es.countP t.qualifies ∧
    (es.foldl ToolSculptCrease.handle t).brush.parameters.invert
      = (t.brush.parameters.invert ^^ decide (es.countP t.qualifies % 2 = 1)) := by
  induction es generalizing t with
  | nil => simp
  | cons e es ih =>
    obtain ⟨h1, h2⟩ := ih (t.handle e)
    obtain ⟨g1, g2⟩ := ToolSculptCrease.handle_toggles t e
    rw [ToolSculptCrease.qualifies_handle] at h1 h2
    simp only [List.foldl_cons, List.countP_cons]
    rw [h1, h2, g1, g2]
    refine ⟨?_, ?_⟩
    · cases hq : t.qualifies e <;> simp [hq]
      omega
    · rcases Nat.mod_two_eq_zero_or_one (List.countP t.qualifies es) with hp | hp
      · have hp2 : (List.countP t.qualifies es + 1) % 2 = 1 := by omega
        cases hq : t.qualifies e <;> cases hi : t.brush.parameters.invert <;>
          simp [hq, hi, hp, hp2]
      · have hp2 : (List.countP t.qualifies es + 1) % 2 = 0 := by omega
        cases hq : t.qualifies e <;> cases hi : t.brush.parameters.invert <;>
          simp [hq, hi, hp, hp2]

/-- C5: for every brush and every tool state (hence every content of the
preference store), `runSetupBrush` leaves `detailFactor` equal to its value
before the call plus `0.5`; two stores give the same result for the same brush. -/
theorem C5_detailFactor_offset (t : ToolSculptCrease) (brush : SculptBrush) :
    (t.runSetupBrush brush).detailFactor = brush.detailFactor + 1 / 2 ∧
    ∀ u : ToolSculptCrease,
      (u.runSetupBrush brush).detailFactor = (t.runSetupBrush brush).detailFactor :=
  ⟨rfl, fun _ => rfl⟩

/-- C6: in the stroke handling of the crease tool, a move event leaves `invert`
as it was and does not invoke the toggle; a press event of a stroke (a
pointer-down over a mesh) accompanied by the modifier key invokes the toggle
exactly once and flips `invert`; and over any sequence of events the number of
toggles is the number of such presses. -/
theorem C6_toggle_once_per_press :
    (∀ (t : ToolSculptCrease) (e : QMouseEvent), e.type = MouseEventType.Move →
      (t.runSculptMouseMoveEvent e).brush.parameters.invert = t.brush.parameters.invert ∧
      (t.runSculptMouseMoveEvent e).toggles = t.toggles) ∧
    (∀ (t : ToolSculptCrease) (e : QMouseEvent), e.type = MouseEventType.Press →
      e.modifier = true → t.overMesh e = true →
      (t.runSculptMousePressEvent e).2.toggles = t.toggles + 1 ∧
      (t.runSculptMousePressEvent e).2.brush.parameters.invert
        = !t.brush.parameters.invert) ∧
    (∀ (t : ToolSculptCrease) (es : List QMouseEvent),
      (es.foldl ToolSculptCrease.handle t).toggles = t.toggles + es.countP t.qualifies ∧
      (es.foldl ToolSculptCrease.handle t).brush.parameters.invert
        = (t.brush.parameters.invert ^^ decide (es.countP t.qualifies % 2 = 1))) := by
  refine ⟨?_, ?_, fun t es => ToolSculptCrease.foldl_toggles es t⟩
  · intro t e he
    have h := ToolSculptCrease.handle_toggles t e
    simp only [ToolSculptCrease.handle, he, ToolSculptCrease.qualifies] at h
    exact ⟨by simpa using h.2, by simpa using h.1⟩
  · intro t e he hm ho
    have h := ToolSculptCrease.handle_toggles t e
    simp only [ToolSculptCrease.handle, he, ToolSculptCrease.qualifies, hm, ho] at h
    simpa using h

/-- Witness for C6: the press with modifier that starts `toyStroke`, and a move. -/
theorem C6_toggle_once_per_press_witness :
    ((toyCrease.runSculptMouseMoveEvent
        ⟨MouseButton.LeftButton, 2, 1, MouseEventType.Move, true⟩).brush.parameters.invert
        = toyCrease.brush.parameters.invert ∧
      (toyCrease.runSculptMouseMoveEvent
        ⟨MouseButton.LeftButton, 2, 1, MouseEventType.Move, true⟩).toggles
        = toyCrease.toggles) ∧
    ((toyCrease.runSculptMousePressEvent
        ⟨MouseButton.LeftButton, 1, 1, MouseEventType.Press, true⟩).2.toggles
        = toyCrease.toggles + 1 ∧
      (toyCrease.runSculptMousePressEvent
        ⟨MouseButton.LeftButton, 1, 1, MouseEventType.Press, true⟩).2.brush.parameters.invert
        = !toyCrease.brush.parameters.invert) ∧
    (toyStroke.foldl ToolSculptCrease.handle toyCrease).toggles = 1 :=
  ⟨C6_toggle_once_per_press.1 toyCrease
      ⟨MouseButton.LeftButton, 2, 1, MouseEventType.Move, true⟩ rfl,
   C6_toggle_once_per_press.2.1 toyCrease
      ⟨MouseButton.LeftButton, 1, 1, MouseEventType.Press, true⟩ rfl rfl (by decide),
   by decide⟩

/-- Counterexample to C8 as stated: with `intensity ↦ 2` in the preference store,
the brush's intensity after `runSetupBrush` is `2`, outside `[0,1]`. -/
theorem C8_counterexample :
    ((({ toyCrease with cache := Cache.empty.setFloat "intensity" 2 } :
        ToolSculptCrease).runSetupBrush toyCrease.brush).parameters.intensity = 2) ∧
    ¬ ((({ toyCrease with cache := Cache.empty.setFloat "intensity" 2 } :
        ToolSculptCrease).runSetupBrush toyCrease.brush).parameters.intensity ≤ 1) := by
  have h : (({ toyCrease with cache := Cache.empty.setFloat "intensity" 2 } :
      ToolSculptCrease).runSetupBrush toyCrease.brush).parameters.intensity = 2 := by
    simp [ToolSculptCrease.runSetupBrush, Cache.getFloat, Cache.setFloat]
  exact ⟨h, by rw [h]; norm_num⟩

/-- C8 (amended): after `runSetupBrush` the brush's intensity is the value stored
under `intensity` when there is one and `0.5` otherwise; hence it lies in `[0,1]`
when the store holds no intensity, and when the store holds the intensity `v` it
lies in `[0,1]` exactly when `v` does.  After an intensity-slider callback with a
value `i` in `[0.1, 0.9]` the intensity is `i`, in `[0,1]`, `i` is what is
written to the store, and `i` is what a later `runSetupBrush` reads back. -/
theorem C8_intensity_in_unit_interval :
    (∀ (t : ToolSculptCrease) (brush : SculptBrush),
      t.cache.floats "intensity" = none →
      (t.runSetupBrush brush).parameters.intensity = 1 / 2 ∧
      0 ≤ (t.runSetupBrush brush).parameters.intensity ∧
      (t.runSetupBrush brush).parameters.intensity ≤ 1) ∧
    (∀ (t : ToolSculptCrease) (brush : SculptBrush) (v : ℚ),
      t.cache.floats "intensity" = some v →
      (t.runSetupBrush brush).parameters.intensity = v ∧
      ((0 ≤ (t.runSetupBrush brush).parameters.intensity ∧
          (t.runSetupBrush brush).parameters.intensity ≤ 1) ↔ (0 ≤ v ∧ v ≤ 1))) ∧
    (∀ (t : ToolSculptCrease) (brush : SculptBrush),
      (∀ v, t.cache.floats "intensity" = some v → 0 ≤ v ∧ v ≤ 1) →
      0 ≤ (t.runSetupBrush brush).parameters.intensity ∧
      (t.runSetupBrush brush).parameters.intensity ≤ 1) ∧
    (∀ (t : ToolSculptCrease) (i : ℚ), 1 / 10 ≤ i → i ≤ 9 / 10 →
      (t.onIntensity i).brush.parameters.intensity = i ∧
      0 ≤ (t.onIntensity i).brush.parameters.intensity ∧
      (t.onIntensity i).brush.parameters.intensity ≤ 1 ∧
      (t.onIntensity i).cache.floats "intensity" = some i ∧
      ∀ brush : SculptBrush,
        ((t.onIntensity i).runSetupBrush brush).parameters.intensity = i) := by
  have hnone : ∀ (t : ToolSculptCrease) (brush : SculptBrush),
      t.cache.floats "intensity" = none →
      (t.runSetupBrush brush).parameters.intensity = 1 / 2 := by
    intro t brush hc
    simp only [ToolSculptCrease.runSetupBrush, Cache.getFloat, hc]
  have hsome : ∀ (t : ToolSculptCrease) (brush : SculptBrush) (v : ℚ),
      t.cache.floats "intensity" = some v →
      (t.runSetupBrush brush).parameters.intensity = v := by
    intro t brush v hc
    simp only [ToolSculptCrease.runSetupBrush, Cache.getFloat, hc]
  refine ⟨?_, ?_, ?_, ?_⟩
  · intro t brush hc
    rw [hnone t brush hc]
    exact ⟨rfl, by norm_num, by norm_num⟩
  · intro t brush v hc
    rw [hsome t brush v hc]
    exact ⟨rfl, Iff.rfl⟩
  · intro t brush h
    cases hc : t.cache.floats "intensity" with
    | none =>
      rw [hnone t brush hc]
      exact ⟨by norm_num, by norm_num⟩
    | some v =>
      rw [hsome t brush v hc]
      exact h v hc
  · intro t i h1 h2
    refine ⟨rfl, ?_, ?_, ?_, ?_⟩
    · show 0 ≤ i
      linarith
    · show i ≤ 1
      linarith
    · simp [ToolSculptCrease.onIntensity, Cache.setFloat]
    · intro brush
      simp [ToolSculptCrease.runSetupBrush, ToolSculptCrease.onIntensity, Cache.getFloat,
        Cache.setFloat]

/-- Witness for C8 (amended): the empty store; a store that holds `intensity ↦ 3/4`,
which `runSetupBrush` reads back; and the slider moved to `0.3`. -/
theorem C8_intensity_in_unit_interval_witness :
    (toyCrease.cache.floats "intensity" = none ∧
      (toyCrease.runSetupBrush toyCrease.brush).parameters.intensity = 1 / 2 ∧
      0 ≤ (toyCrease.runSetupBrush toyCrease.brush).parameters.intensity ∧
      (toyCrease.runSetupBrush toyCrease.brush).parameters.intensity ≤ 1) ∧
    (toyCreaseStored.cache.floats "intensity" = some (3 / 4) ∧
      (toyCreaseStored.runSetupBrush toyCrease.brush).parameters.intensity = 3 / 4 ∧
      ((0 ≤ (toyCreaseStored.runSetupBrush toyCrease.brush).parameters.intensity ∧
          (toyCreaseStored.runSetupBrush toyCrease.brush).parameters.intensity ≤ 1)
        ↔ ((0 : ℚ) ≤ 3 / 4 ∧ (3 / 4 : ℚ) ≤ 1))) ∧
    (0 ≤ (toyCreaseStored.runSetupBrush toyCrease.brush).parameters.intensity ∧
      (toyCreaseStored.runSetupBrush toyCrease.brush).parameters.intensity ≤ 1) ∧
    ((toyCrease.onIntensity (3 / 10)).brush.parameters.intensity = 3 / 10 ∧
      0 ≤ (toyCrease.onIntensity (3 / 10)).brush.parameters.intensity ∧
      (toyCrease.onIntensity (3 / 10)).brush.parameters.intensity ≤ 1 ∧
      (toyCrease.onIntensity (3 / 10)).cache.floats "intensity" = some (3 / 10) ∧
      ∀ brush : SculptBrush,
        ((toyCrease.onIntensity (3 / 10)).runSetupBrush brush).parameters.intensity
          = 3 / 10) :=
  have hstored : toyCreaseStored.cache.floats "intensity" = some (3 / 4) := by
    simp [toyCreaseStored, Cache.setFloat]
  ⟨⟨rfl, C8_intensity_in_unit_interval.1 toyCrease toyCrease.brush rfl⟩,
   ⟨hstored,
    C8_intensity_in_unit_interval.2.1 toyCreaseStored toyCrease.brush (3 / 4) hstored⟩,
   C8_intensity_in_unit_interval.2.2.1 toyCreaseStored toyCrease.brush
     (by
       intro v hv
       rw [hstored] at hv
       have hv2 : (3 / 4 : ℚ) = v := Option.some.inj hv
       rw [← hv2]
       exact ⟨by norm_num, by norm_num⟩),
   C8_intensity_in_unit_interval.2.2.2 toyCrease (3 / 10) (by norm_num) (by norm_num)⟩

/-! ## The 6-gon triangulation -/

section Triangulate

open WingedMesh PATriangulate6Gon

/-- What a hexagon gives. -/
theorem hexagon_facts (m : WingedMesh) (f e0 e1 e2 e3 e4 e5 : Nat)
    (hwf : m.isPolygon f 6) (hes : m.faceEdges f = [e0, e1, e2, e3, e4, e5]) :
    ((m.faces f).edge = e0 ∧ (m.edges e0).next = e1 ∧ (m.edges e1).next = e2 ∧
      (m.edges e2).next = e3 ∧ (m.edges e3).next = e4 ∧ (m.edges e4).next = e5 ∧
      (m.edges e5).next = e0) ∧
    [e0, e1, e2, e3, e4, e5].Nodup ∧
    (∀ e ∈ [e0, e1, e2, e3, e4, e5],
      e < m.numEdges ∧ (m.edges e).face = f ∧ (m.edges (m.edges e).next).prev = e ∧
      (m.edges e).twin < m.numEdges ∧ (m.edges e).twin ∉ [e0, e1, e2, e3, e4, e5] ∧
      (m.edges (m.edges e).twin).twin = e) := by
  obtain ⟨_, hdeg, hclose, hnd, hall⟩ := hwf
  rw [hes] at hnd hall
  refine ⟨?_, hnd, hall⟩
  simp only [faceEdges, hdeg, walk, List.cons.injEq, and_true] at hes
  obtain ⟨h0, h1, h2, h3, h4, h5⟩ := hes
  rw [h0] at h1 h2 h3 h4 h5; rw [h1] at h2 h3 h4 h5; rw [h2] at h3 h4 h5
  rw [h3] at h4 h5; rw [h4] at h5
  simp only [nextN, h0, h1, h2, h3, h4, h5] at hclose
  exact ⟨h0, h1, h2, h3, h4, h5, hclose⟩


theorem rewire_old (m : WingedMesh) (f e0 e1 e2 e3 e4 e5 : Nat)
    (hnd : [e0, e1, e2, e3, e4, e5].Nodup)
    (hlt : ∀ e ∈ [e0, e1, e2, e3, e4, e5], e < m.numEdges) :
    rewire m f e0 e1 e2 e3 e4 e5 e0
      = { m.edges e0 with face := m.numFaces, prev := m.numEdges } ∧
    rewire m f e0 e1 e2 e3 e4 e5 e1
      = { m.edges e1 with face := m.numFaces, next := m.numEdges } ∧
    rewire m f e0 e1 e2 e3 e4 e5 e2
      = { m.edges e2 with face := m.numFaces + 1, prev := m.numEdges + 2 } ∧
    rewire m f e0 e1 e2 e3 e4 e5 e3
      = { m.edges e3 with face := m.numFaces + 1, next := m.numEdges + 2 } ∧
    rewire m f e0 e1 e2 e3 e4 e5 e4
      = { m.edges e4 with face := m.numFaces + 2, prev := m.numEdges + 4 } ∧
    rewire m f e0 e1 e2 e3 e4 e5 e5
      = { m.edges e5 with face := m.numFaces + 2, next := m.numEdges + 4 } := by
  simp only [List.nodup_cons, List.mem_cons, List.mem_singleton, not_or, List.not_mem_nil,
    not_false_eq_true, List.nodup_nil, and_true, List.forall_mem_cons, forall_eq,
    or_false, forall_eq_or_imp] at hnd hlt
  obtain ⟨h0, h1, h2, h3, h4, h5⟩ := hlt
  obtain ⟨⟨n01, n02, n03, n04, n05⟩, ⟨n12, n13, n14, n15⟩, ⟨n23, n24, n25⟩,
    ⟨n34, n35⟩, n45⟩ := hnd
  refine ⟨?_, ?_, ?_, ?_, ?_, ?_⟩ <;>
    simp [rewire, Nat.not_le.mpr, *]

theorem rewire_new (m : WingedMesh) (f e0 e1 e2 e3 e4 e5 : Nat) :
    rewire m f e0 e1 e2 e3 e4 e5 m.numEdges
      = ⟨(m.edges e2).origin, m.numFaces, m.numEdges + 1, e0, e1⟩ ∧
    rewire m f e0 e1 e2 e3 e4 e5 (m.numEdges + 1)
      = ⟨(m.edges e0).origin, f, m.numEdges, m.numEdges + 3, m.numEdges + 5⟩ ∧
    rewire m f e0 e1 e2 e3 e4 e5 (m.numEdges + 2)
      = ⟨(m.edges e4).origin, m.numFaces + 1, m.numEdges + 3, e2, e3⟩ ∧
    rewire m f e0 e1 e2 e3 e4 e5 (m.numEdges + 3)
      = ⟨(m.edges e2).origin, f, m.numEdges + 2, m.numEdges + 5, m.numEdges + 1⟩ ∧
    rewire m f e0 e1 e2 e3 e4 e5 (m.numEdges + 4)
      = ⟨(m.edges e0).origin, m.numFaces + 2, m.numEdges + 5, e4, e5⟩ ∧
    rewire m f e0 e1 e2 e3 e4 e5 (m.numEdges + 5)
      = ⟨(m.edges e4).origin, f, m.numEdges + 4, m.numEdges + 1, m.numEdges + 3⟩ := by
  refine ⟨?_, ?_, ?_, ?_, ?_, ?_⟩ <;> simp [rewire]

theorem rewire_other (m : WingedMesh) (f e0 e1 e2 e3 e4 e5 x : Nat)
    (hx : x < m.numEdges) (hne : x ∉ [e0, e1, e2, e3, e4, e5]) :
    rewire m f e0 e1 e2 e3 e4 e5 x = m.edges x := by
  simp only [List.mem_cons, List.mem_singleton, not_or, List.not_mem_nil, or_false] at hne
  simp [rewire, Nat.not_le.mpr hx, hne]


theorem refaces_spec (m : WingedMesh) (f e0 e2 e4 : Nat) (hf : f < m.numFaces) :
    refaces m f e0 e2 e4 m.numFaces = ⟨e0, 3⟩ ∧
    refaces m f e0 e2 e4 (m.numFaces + 1) = ⟨e2, 3⟩ ∧
    refaces m f e0 e2 e4 (m.numFaces + 2) = ⟨e4, 3⟩ ∧
    refaces m f e0 e2 e4 f = ⟨m.numEdges + 1, 3⟩ ∧
    ∀ g, g < m.numFaces → g ≠ f → refaces m f e0 e2 e4 g = m.faces g := by
  have h1 : f ≠ m.numFaces := by omega
  have h2 : f ≠ m.numFaces + 1 := by omega
  have h3 : f ≠ m.numFaces + 2 := by omega
  refine ⟨by simp [refaces], by simp [refaces], by simp [refaces],
    by simp [refaces, h1, h2, h3], ?_⟩
  intro g hg hgf
  have g1 : g ≠ m.numFaces := by omega
  have g2 : g ≠ m.numFaces + 1 := by omega
  have g3 : g ≠ m.numFaces + 2 := by omega
  simp [refaces, g1, g2, g3, hgf]

/-- A face whose three half-edges `a`, `b`, `c` are linked in a cycle and are
well-formed one by one is a well-formed triangle. -/
theorem isPolygon_triangle (r : WingedMesh) (g a b c : Nat)
    (hg : g < r.numFaces) (hface : r.faces g = ⟨a, 3⟩)
    (hab : (r.edges a).next = b) (hbc : (r.edges b).next = c) (hca : (r.edges c).next = a)
    (hnd : a ≠ b ∧ a ≠ c ∧ b ≠ c)
    (hall : ∀ e ∈ [a, b, c],
      e < r.numEdges ∧ (r.edges e).face = g ∧ (r.edges (r.edges e).next).prev = e ∧
      (r.edges e).twin < r.numEdges ∧ (r.edges e).twin ∉ [a, b, c] ∧
      (r.edges (r.edges e).twin).twin = e) :
    r.isPolygon g 3 := by
  have hE : r.faceEdges g = [a, b, c] := by
    simp [faceEdges, walk, hface, hab, hbc]
  unfold isPolygon
  rw [hE]
  refine ⟨hg, by rw [hface], ?_, ?_, hall⟩
  · simp [nextN, hface, hab, hbc, hca]
  · simp only [List.nodup_cons, List.mem_cons, List.mem_singleton, not_or, List.not_mem_nil,
      not_false_eq_true, List.nodup_nil, and_true, or_false]
    exact ⟨⟨hnd.1, hnd.2.1⟩, hnd.2.2⟩

/-- A corner triangle of the split: two consecutive boundary half-edges `ea`, `eb`
of the hexagon closed by the new half-edge `d`, whose twin is `d2`. -/
theorem corner_isPolygon (m r : WingedMesh) (g ea eb d d2 o : Nat) (es : List Nat)
    (hg : g < r.numFaces) (hface : r.faces g = ⟨ea, 3⟩)
    (hnE : r.numEdges = m.numEdges + 6)
    (ra : r.edges ea = { m.edges ea with face := g, prev := d })
    (rb : r.edges eb = { m.edges eb with face := g, next := d })
    (rd : r.edges d = ⟨o, g, d2, ea, eb⟩) (rd2 : (r.edges d2).twin = d)
    (hd : m.numEdges ≤ d ∧ d < m.numEdges + 6) (hd2 : m.numEdges ≤ d2 ∧ d2 < m.numEdges + 6)
    (hdd : d2 ≠ d)
    (hab : (m.edges ea).next = eb) (hne : ea ≠ eb) (hma : ea ∈ es) (hmb : eb ∈ es)
    (ha : ea < m.numEdges ∧ (m.edges eb).prev = ea ∧ (m.edges ea).twin < m.numEdges ∧
      (m.edges ea).twin ∉ es ∧ (m.edges (m.edges ea).twin).twin = ea)
    (hb : eb < m.numEdges ∧ (m.edges eb).twin < m.numEdges ∧
      (m.edges eb).twin ∉ es ∧ (m.edges (m.edges eb).twin).twin = eb)
    (wa : r.edges (m.edges ea).twin = m.edges (m.edges ea).twin)
    (wb : r.edges (m.edges eb).twin = m.edges (m.edges eb).twin) :
    r.isPolygon g 3 := by
  obtain ⟨la, pa, tla, tna, tta⟩ := ha
  obtain ⟨lb, tlb, tnb, ttb⟩ := hb
  have nad : ea ≠ d := by omega
  have nbd : eb ≠ d := by omega
  apply isPolygon_triangle r g ea eb d hg hface
  · rw [ra]; exact hab
  · rw [rb]
  · rw [rd]
  · exact ⟨hne, nad, nbd⟩
  · intro e he
    simp only [List.mem_cons, List.mem_singleton, List.not_mem_nil, or_false] at he
    rcases he with rfl | rfl | rfl
    · refine ⟨by omega, by rw [ra], ?_, ?_, ?_, ?_⟩
      · rw [ra]; simp only [hab, rb, pa]
      · rw [ra]; simp only; omega
      · rw [ra]; simp only
        intro hmem
        simp only [List.mem_cons, List.mem_singleton, List.not_mem_nil, or_false] at hmem
        rcases hmem with h | h | h
        · exact tna (by rw [h]; exact hma)
        · exact tna (by rw [h]; exact hmb)
        · omega
      · rw [ra]; simp only [wa, tta]
    · refine ⟨by omega, by rw [rb], ?_, ?_, ?_, ?_⟩
      · rw [rb]; simp only [rd]
      · rw [rb]; simp only; omega
      · rw [rb]; simp only
        intro hmem
        simp only [List.mem_cons, List.mem_singleton, List.not_mem_nil, or_false] at hmem
        rcases hmem with h | h | h
        · exact tnb (by rw [h]; exact hma)
        · exact tnb (by rw [h]; exact hmb)
        · omega
      · rw [rb]; simp only [wb, ttb]
    · refine ⟨by omega, by rw [rd], ?_, ?_, ?_, ?_⟩
      · rw [rd]; simp only [ra]
      · rw [rd]; simp only; omega
      · rw [rd]; simp only
        intro hmem
        simp only [List.mem_cons, List.mem_singleton, List.not_mem_nil, or_false] at hmem
        rcases hmem with h | h | h
        · omega
        · omega
        · exact hdd h
      · rw [rd]; simp only [rd2]

/-- The central triangle of the split: the three new half-edges `k + 1`, `k + 3`,
`k + 5`, whose twins are `k`, `k + 2`, `k + 4`. -/
theorem center_isPolygon (r : WingedMesh) (f k : Nat) (a0 a1 a2 b0 b1 b2 : HalfEdge)
    (hf : f < r.numFaces) (hface : r.faces f = ⟨k + 1, 3⟩) (hnE : r.numEdges = k + 6)
    (d0 : r.edges k = a0) (d2 : r.edges (k + 2) = a1) (d4 : r.edges (k + 4) = a2)
    (t0 : a0.twin = k + 1) (t1 : a1.twin = k + 3) (t2 : a2.twin = k + 5)
    (d1 : r.edges (k + 1) = b0) (d3 : r.edges (k + 3) = b1) (d5 : r.edges (k + 5) = b2)
    (hb0 : b0 = ⟨b0.origin, f, k, k + 3, k + 5⟩)
    (hb1 : b1 = ⟨b1.origin, f, k + 2, k + 5, k + 1⟩)
    (hb2 : b2 = ⟨b2.origin, f, k + 4, k + 1, k + 3⟩) :
    r.isPolygon f 3 := by
  have n0 : b0.next = k + 3 := by rw [hb0]
  have n1 : b1.next = k + 5 := by rw [hb1]
  have n2 : b2.next = k + 1 := by rw [hb2]
  have p0 : b0.prev = k + 5 := by rw [hb0]
  have p1 : b1.prev = k + 1 := by rw [hb1]
  have p2 : b2.prev = k + 3 := by rw [hb2]
  have w0 : b0.twin = k := by rw [hb0]
  have w1 : b1.twin = k + 2 := by rw [hb1]
  have w2 : b2.twin = k + 4 := by rw [hb2]
  have c0 : b0.face = f := by rw [hb0]
  have c1 : b1.face = f := by rw [hb1]
  have c2 : b2.face = f := by rw [hb2]
  apply isPolygon_triangle r f (k + 1) (k + 3) (k + 5) hf hface
  · rw [d1, n0]
  · rw [d3, n1]
  · rw [d5, n2]
  · omega
  · intro e he
    simp only [List.mem_cons, List.mem_singleton, List.not_mem_nil, or_false] at he
    rcases he with h | h | h <;> subst h
    · refine ⟨by omega, by rw [d1, c0], by rw [d1, n0, d3, p1], by rw [d1, w0]; omega, ?_,
        by rw [d1, w0, d0, t0]⟩
      rw [d1, w0]
      simp only [List.mem_cons, List.mem_singleton, List.not_mem_nil, or_false]
      omega
    · refine ⟨by omega, by rw [d3, c1], by rw [d3, n1, d5, p2], by rw [d3, w1]; omega, ?_,
        by rw [d3, w1, d2, t1]⟩
      rw [d3, w1]
      simp only [List.mem_cons, List.mem_singleton, List.not_mem_nil, or_false]
      omega
    · refine ⟨by omega, by rw [d5, c2], by rw [d5, n2, d1, p0], by rw [d5, w2]; omega, ?_,
        by rw [d5, w2, d4, t2]⟩
      rw [d5, w2]
      simp only [List.mem_cons, List.mem_singleton, List.not_mem_nil, or_false]
      omega

/-- The mesh after the split, described through its arenas: the four faces are
well-formed triangles. -/
theorem split_isPolygon (m r : WingedMesh) (f e0 e1 e2 e3 e4 e5 : Nat)
    (hwf : m.isPolygon f 6) (hes : m.faceEdges f = [e0, e1, e2, e3, e4, e5])
    (hnE : r.numEdges = m.numEdges + 6) (hnF : r.numFaces = m.numFaces + 3)
    (hE : r.edges = rewire m f e0 e1 e2 e3 e4 e5)
    (hF : r.faces = refaces m f e0 e2 e4) :
    ∀ g ∈ [m.numFaces, m.numFaces + 1, m.numFaces + 2, f], r.isPolygon g 3 := by
  obtain ⟨⟨h0, n0, n1, n2, n3, n4, n5⟩, hnd, hall⟩ :=
    hexagon_facts m f e0 e1 e2 e3 e4 e5 hwf hes
  have hf : f < m.numFaces := hwf.1
  have hlt : ∀ e ∈ [e0, e1, e2, e3, e4, e5], e < m.numEdges := fun e he => (hall e he).1
  obtain ⟨r0, r1, r2, r3, r4, r5⟩ := rewire_old m f e0 e1 e2 e3 e4 e5 hnd hlt
  obtain ⟨d0, d1, d2, d3, d4, d5⟩ := rewire_new m f e0 e1 e2 e3 e4 e5
  obtain ⟨fa, fb, fc, ff, -⟩ := refaces_spec m f e0 e2 e4 hf
  rw [← hE] at r0 r1 r2 r3 r4 r5 d0 d1 d2 d3 d4 d5
  rw [← hF] at fa fb fc ff
  have htw : ∀ e ∈ [e0, e1, e2, e3, e4, e5],
      r.edges (m.edges e).twin = m.edges (m.edges e).twin := fun e he => by
    rw [hE]
    exact rewire_other m f e0 e1 e2 e3 e4 e5 _ (hall e he).2.2.2.1 (hall e he).2.2.2.2.1
  have m0 : e0 ∈ [e0, e1, e2, e3, e4, e5] := by simp
  have m1 : e1 ∈ [e0, e1, e2, e3, e4, e5] := by simp
  have m2 : e2 ∈ [e0, e1, e2, e3, e4, e5] := by simp
  have m3 : e3 ∈ [e0, e1, e2, e3, e4, e5] := by simp
  have m4 : e4 ∈ [e0, e1, e2, e3, e4, e5] := by simp
  have m5 : e5 ∈ [e0, e1, e2, e3, e4, e5] := by simp
  have q0 := hall e0 m0
  have q1 := hall e1 m1
  have q2 := hall e2 m2
  have q3 := hall e3 m3
  have q4 := hall e4 m4
  have q5 := hall e5 m5
  rw [n0] at q0; rw [n1] at q1; rw [n2] at q2; rw [n3] at q3; rw [n4] at q4; rw [n5] at q5
  have x01 : e0 ≠ e1 := by
    intro h; subst h; simp at hnd
  have x23 : e2 ≠ e3 := by
    intro h; subst h; simp at hnd
  have x45 : e4 ≠ e5 := by
    intro h; subst h; simp at hnd
  intro g hg
  simp only [List.mem_cons, List.mem_singleton, List.not_mem_nil, or_false] at hg
  rcases hg with h | h | h | h <;> subst h
  · exact corner_isPolygon m r m.numFaces e0 e1 m.numEdges (m.numEdges + 1) _ _
      (by omega) fa hnE r0 r1 d0 (by rw [d1]) (by omega) (by omega) (by omega) n0 x01 m0 m1
      ⟨q0.1, q0.2.2.1, q0.2.2.2⟩ ⟨q1.1, q1.2.2.2⟩ (htw e0 m0) (htw e1 m1)
  · exact corner_isPolygon m r (m.numFaces + 1) e2 e3 (m.numEdges + 2) (m.numEdges + 3) _ _
      (by omega) fb hnE r2 r3 d2 (by rw [d3]) (by omega) (by omega) (by omega) n2 x23 m2 m3
      ⟨q2.1, q2.2.2.1, q2.2.2.2⟩ ⟨q3.1, q3.2.2.2⟩ (htw e2 m2) (htw e3 m3)
  · exact corner_isPolygon m r (m.numFaces + 2) e4 e5 (m.numEdges + 4) (m.numEdges + 5) _ _
      (by omega) fc hnE r4 r5 d4 (by rw [d5]) (by omega) (by omega) (by omega) n4 x45 m4 m5
      ⟨q4.1, q4.2.2.1, q4.2.2.2⟩ ⟨q5.1, q5.2.2.2⟩ (htw e4 m4) (htw e5 m5)
  · exact center_isPolygon r g m.numEdges _ _ _ _ _ _ (by omega) ff hnE d0 d2 d4 rfl rfl rfl
      d1 d3 d5 rfl rfl rfl

theorem not_mem_split (t k e0 e1 e2 e3 e4 e5 : Nat) (ht : t < k)
    (hn : t ∉ [e0, e1, e2, e3, e4, e5]) :
    t ∉ [e0, e1, k, e2, e3, k + 2, e4, e5, k + 4, k + 1, k + 3, k + 5] := by
  simp only [List.mem_cons, List.mem_singleton, List.not_mem_nil, or_false, not_or] at hn ⊢
  omega

/-- The half-edges around the four faces after the split, and which of them lie
on the outer boundary. -/
theorem split_boundary (m r : WingedMesh) (f e0 e1 e2 e3 e4 e5 : Nat)
    (hwf : m.isPolygon f 6) (hes : m.faceEdges f = [e0, e1, e2, e3, e4, e5])
    (hE : r.edges = rewire m f e0 e1 e2 e3 e4 e5)
    (hF : r.faces = refaces m f e0 e2 e4) :
    r.facesEdges [m.numFaces, m.numFaces + 1, m.numFaces + 2, f]
      = [e0, e1, m.numEdges, e2, e3, m.numEdges + 2, e4, e5, m.numEdges + 4,
         m.numEdges + 1, m.numEdges + 3, m.numEdges + 5] ∧
    r.outerBoundary [m.numFaces, m.numFaces + 1, m.numFaces + 2, f]
      = [e0, e1, e2, e3, e4, e5] := by
  obtain ⟨⟨h0, n0, n1, n2, n3, n4, n5⟩, hnd, hall⟩ :=
    hexagon_facts m f e0 e1 e2 e3 e4 e5 hwf hes
  have hf : f < m.numFaces := hwf.1
  have hlt : ∀ e ∈ [e0, e1, e2, e3, e4, e5], e < m.numEdges := fun e he => (hall e he).1
  obtain ⟨r0, r1, r2, r3, r4, r5⟩ := rewire_old m f e0 e1 e2 e3 e4 e5 hnd hlt
  obtain ⟨d0, d1, d2, d3, d4, d5⟩ := rewire_new m f e0 e1 e2 e3 e4 e5
  obtain ⟨fa, fb, fc, ff, -⟩ := refaces_spec m f e0 e2 e4 hf
  rw [← hE] at r0 r1 r2 r3 r4 r5 d0 d1 d2 d3 d4 d5
  rw [← hF] at fa fb fc ff
  have hH : r.facesEdges [m.numFaces, m.numFaces + 1, m.numFaces + 2, f]
      = [e0, e1, m.numEdges, e2, e3, m.numEdges + 2, e4, e5, m.numEdges + 4,
         m.numEdges + 1, m.numEdges + 3, m.numEdges + 5] := by
    simp [facesEdges, faceEdges, walk, fa, fb, fc, ff, r0, r1, r2, r3, r4, r5, d1, d3,
      n0, n2, n4]
  refine ⟨hH, ?_⟩
  have b : ∀ e ∈ [e0, e1, e2, e3, e4, e5],
      (m.edges e).twin ∉ [e0, e1, m.numEdges, e2, e3, m.numEdges + 2, e4, e5,
        m.numEdges + 4, m.numEdges + 1, m.numEdges + 3, m.numEdges + 5] := fun e he =>
    not_mem_split _ _ _ _ _ _ _ _ (hall e he).2.2.2.1 (hall e he).2.2.2.2.1
  have b0 := b e0 (by simp)
  have b1 := b e1 (by simp)
  have b2 := b e2 (by simp)
  have b3 := b e3 (by simp)
  have b4 := b e4 (by simp)
  have b5 := b e5 (by simp)
  unfold outerBoundary
  rw [hH]
  simp only [List.filter_cons, List.filter_nil, r0, r1, r2, r3, r4, r5, d0, d1, d2, d3, d4, d5,
    b0, b1, b2, b3, b4, b5, not_false_eq_true, decide_True, if_true]
  simp

/-- C4: for every well-formed hexagonal face `f` with half-edges `e0 .. e5` and
vertices `v0 .. v5` in cyclic order, `v0 = f.edge ()->firstVertex (f)` even,
`run` succeeds and replaces `f` by exactly four faces (three new ones and the
one that takes the place of `f`; all other faces are unchanged), which are
well-formed triangles with vertices `v0 v1 v2`, `v2 v3 v4`, `v4 v5 v0` and
`v0 v2 v4`; the half-edges around them are the six original ones and six new
ones, and their outer boundary is exactly `e0 .. e5`, each once, with twin and
origin unchanged. -/
theorem C4_triangulate_hexagon (m : WingedMesh) (f : Nat) (ids : Option (List Nat))
    (e0 e1 e2 e3 e4 e5 v0 v1 v2 v3 v4 v5 : Nat)
    (hwf : m.isPolygon f 6)
    (hes : m.faceEdges f = [e0, e1, e2, e3, e4, e5])
    (hvs : m.faceVertices f = [v0, v1, v2, v3, v4, v5])
    (hev : m.isEven v0 = true) :
    ∃ r : WingedMesh,
      run m f ids = some (r, f, ids.map
        (fun l => l ++ [f, m.numFaces, m.numFaces + 1, m.numFaces + 2])) ∧
      r.numFaces = m.numFaces + 3 ∧
      (∀ g, g < m.numFaces → g ≠ f → r.faces g = m.faces g) ∧
      r.faceVertices m.numFaces = [v0, v1, v2] ∧
      r.faceVertices (m.numFaces + 1) = [v2, v3, v4] ∧
      r.faceVertices (m.numFaces + 2) = [v4, v5, v0] ∧
      r.faceVertices f = [v0, v2, v4] ∧
      (∀ g ∈ [m.numFaces, m.numFaces + 1, m.numFaces + 2, f], r.isPolygon g 3) ∧
      r.facesEdges [m.numFaces, m.numFaces + 1, m.numFaces + 2, f]
        = [e0, e1, m.numEdges, e2, e3, m.numEdges + 2, e4, e5, m.numEdges + 4,
           m.numEdges + 1, m.numEdges + 3, m.numEdges + 5] ∧
      r.outerBoundary [m.numFaces, m.numFaces + 1, m.numFaces + 2, f]
        = [e0, e1, e2, e3, e4, e5] ∧
      (∀ e ∈ [e0, e1, e2, e3, e4, e5], (r.edges e).twin = (m.edges e).twin ∧
        (r.edges e).origin = (m.edges e).origin) := by
  obtain ⟨⟨h0, n0, n1, n2, n3, n4, n5⟩, hnd, hall⟩ :=
    hexagon_facts m f e0 e1 e2 e3 e4 e5 hwf hes
  have hf : f < m.numFaces := hwf.1
  have hdeg : (m.faces f).degree = 6 := hwf.2.1
  have hlt : ∀ e ∈ [e0, e1, e2, e3, e4, e5], e < m.numEdges := fun e he => (hall e he).1
  obtain ⟨r0, r1, r2, r3, r4, r5⟩ := rewire_old m f e0 e1 e2 e3 e4 e5 hnd hlt
  obtain ⟨d0, d1, d2, d3, d4, d5⟩ := rewire_new m f e0 e1 e2 e3 e4 e5
  obtain ⟨fa, fb, fc, ff, fo⟩ := refaces_spec m f e0 e2 e4 hf
  have hvs2 := hvs
  simp only [faceVertices, hes, List.map_cons, List.map_nil, List.cons.injEq, and_true] at hvs2
  obtain ⟨o0, o1, o2, o3, o4, o5⟩ := hvs2
  obtain ⟨hH, hB⟩ := split_boundary m
    { m with numEdges := m.numEdges + 6
             numFaces := m.numFaces + 3
             edges    := rewire m f e0 e1 e2 e3 e4 e5
             faces    := refaces m f e0 e2 e4 } f e0 e1 e2 e3 e4 e5 hwf hes rfl rfl
  refine ⟨{ m with numEdges := m.numEdges + 6
                   numFaces := m.numFaces + 3
                   edges    := rewire m f e0 e1 e2 e3 e4 e5
                   faces    := refaces m f e0 e2 e4 }, ?_, rfl, fo, ?_, ?_, ?_, ?_,
    split_isPolygon m _ f e0 e1 e2 e3 e4 e5 hwf hes rfl rfl rfl rfl, hH, hB, ?_⟩
  · simp only [run, h0, n0, n1, n2, n3, n4, hdeg, o0, hev, and_self, if_true]
  · simp [faceVertices, faceEdges, walk, fa, r0, r1, d0, n0, n1, o0, o1, o2]
  · simp [faceVertices, faceEdges, walk, fb, r2, r3, d2, n2, n3, o2, o3, o4]
  · simp [faceVertices, faceEdges, walk, fc, r4, r5, d4, n4, n5, o0, o4, o5]
  · simp [faceVertices, faceEdges, walk, ff, d1, d3, d5, o0, o2, o4]
  · simp [r0, r1, r2, r3, r4, r5]

/-- Witness for C4: the hexagon `toyHexagon`, face `0`. -/
theorem C4_triangulate_hexagon_witness :
    ∃ r : WingedMesh,
      run toyHexagon 0 (some []) = some (r, 0, some [0, 7, 8, 9]) ∧
      r.numFaces = 10 ∧
      (∀ g, g < 7 → g ≠ 0 → r.faces g = toyHexagon.faces g) ∧
      r.faceVertices 7 = [10, 11, 12] ∧
      r.faceVertices 8 = [12, 13, 14] ∧
      r.faceVertices 9 = [14, 15, 10] ∧
      r.faceVertices 0 = [10, 12, 14] ∧
      (∀ g ∈ [7, 8, 9, 0], r.isPolygon g 3) ∧
      r.facesEdges [7, 8, 9, 0] = [0, 1, 12, 2, 3, 14, 4, 5, 16, 13, 15, 17] ∧
      r.outerBoundary [7, 8, 9, 0] = [0, 1, 2, 3, 4, 5] ∧
      (∀ e ∈ [0, 1, 2, 3, 4, 5], (r.edges e).twin = (toyHexagon.edges e).twin ∧
        (r.edges e).origin = (toyHexagon.edges e).origin) :=
  C4_triangulate_hexagon toyHexagon 0 (some []) 0 1 2 3 4 5 10 11 12 13 14 15
    (by decide) (by decide) (by decide) (by decide)

end Triangulate

end Dilay
